import Mathlib

/-!
Verification of the authentication core of the `hyperoptic-py` client
library (`hyperoptic/auth.py`, `hyperoptic/client.py`,
`hyperoptic/exceptions.py`).

The Python code is shallowly embedded: pure helpers become Lean
functions, the stateful `HyperopticAuth` / `HyperopticClient` methods
become explicit state-passing functions over the held token set, and
the HTTP transport is an explicit environment (`AuthEnv`) recording the
response each endpoint would produce.  Timestamps (`time.time()`) are
modelled as integers; a single instant `now` is used for a whole call,
since no token arithmetic in the source depends on time advancing
during a call.
-/

namespace Hyperoptic

/-! ## TokenSet (auth.py, `TokenSet` dataclass) -/

/-- Embeds the `TokenSet` dataclass: the two `_expires_at` fields hold the
absolute expiry timestamps computed by `__post_init__`. -/
structure TokenSet where
  access_token : String
  refresh_token : String
  id_token : String := ""
  token_type : String := "Bearer"
  expires_in : Int := 300
  refresh_expires_in : Int := 1800
  scope : String := ""
  expiresAt : Int
  refreshExpiresAt : Int
  deriving Repr, DecidableEq

/-- `TokenSet.__post_init__`: with the default `0.0` sentinel for both
absolute timestamps, they are computed as `now + expires_in` and
`now + refresh_expires_in`. -/
def TokenSet.make (now : Int) (access refresh id_tok ttype : String)
    (expires_in refresh_expires_in : Int) (scope : String) : TokenSet :=
  { access_token := access
    refresh_token := refresh
    id_token := id_tok
    token_type := ttype
    expires_in := expires_in
    refresh_expires_in := refresh_expires_in
    scope := scope
    expiresAt := now + expires_in
    refreshExpiresAt := now + refresh_expires_in }

/-- `TokenSet.access_expired`: `time.time() >= self._expires_at - 30`. -/
def TokenSet.access_expired (ts : TokenSet) (now : Int) : Bool :=
  now ≥ ts.expiresAt - 30

/-- `TokenSet.refresh_expired`: `time.time() >= self._refresh_expires_at - 30`. -/
def TokenSet.refresh_expired (ts : TokenSet) (now : Int) : Bool :=
  now ≥ ts.refreshExpiresAt - 30

/-! ## Token endpoint JSON bodies and `_store_tokens` -/

/-- A token-endpoint JSON response body.  The two fields the code reads
with `data[...]` are mandatory; the five read with `data.get(...)` are
optional. -/
structure TokenJSON where
  access_token : String
  refresh_token : String
  id_token : Option String := none
  token_type : Option String := none
  expires_in : Option Int := none
  refresh_expires_in : Option Int := none
  scope : Option String := none
  deriving Repr, DecidableEq

/-- `HyperopticAuth._store_tokens`: builds a fresh `TokenSet` from a token
response body, defaulting every absent optional field. -/
def storeTokens (now : Int) (d : TokenJSON) : TokenSet :=
  TokenSet.make now d.access_token d.refresh_token
    (d.id_token.getD "") (d.token_type.getD "Bearer")
    (d.expires_in.getD 300) (d.refresh_expires_in.getD 1800)
    (d.scope.getD "")

/-! ## SHA-256 and base64url (the `_generate_code_challenge` helper)

`_generate_code_challenge` calls `hashlib.sha256` on the ASCII encoding
of the verifier, base64url-encodes the digest with
`base64.urlsafe_b64encode` and strips the trailing `=` padding.  The
two stdlib functions are embedded executably: `sha256` is the FIPS
180-4 compression function over byte lists (machine words as `Nat`
reduced mod `2^32`), `b64urlEncode` the RFC 4648 url-safe alphabet
encoding with `=` padding. -/

def w32 (n : Nat) : Nat := n % 4294967296

def rotr32 (n x : Nat) : Nat := w32 (x / 2 ^ n + x % 2 ^ n * 2 ^ (32 - n))

def cNot32 (x : Nat) : Nat := 4294967295 - w32 x

def shaCh (x y z : Nat) : Nat := (x &&& y) ^^^ (cNot32 x &&& z)

def shaMaj (x y z : Nat) : Nat := (x &&& y) ^^^ (x &&& z) ^^^ (y &&& z)

def bsig0 (x : Nat) : Nat := rotr32 2 x ^^^ rotr32 13 x ^^^ rotr32 22 x

def bsig1 (x : Nat) : Nat := rotr32 6 x ^^^ rotr32 11 x ^^^ rotr32 25 x

def ssig0 (x : Nat) : Nat := rotr32 7 x ^^^ rotr32 18 x ^^^ x / 2 ^ 3

def ssig1 (x : Nat) : Nat := rotr32 17 x ^^^ rotr32 19 x ^^^ x / 2 ^ 10

def shaK : List Nat :=
  [1116352408, 1899447441, 3049323471, 3921009573, 961987163,
   1508970993, 2453635748, 2870763221, 3624381080, 310598401,
   607225278, 1426881987, 1925078388, 2162078206, 2614888103,
   3248222580, 3835390401, 4022224774, 264347078, 604807628,
   770255983, 1249150122, 1555081692, 1996064986, 2554220882,
   2821834349, 2952996808, 3210313671, 3336571891, 3584528711,
   113926993, 338241895, 666307205, 773529912, 1294757372,
   1396182291, 1695183700, 1986661051, 2177026350, 2456956037,
   2730485921, 2820302411, 3259730800, 3345764771, 3516065817,
   3600352804, 4094571909, 275423344, 430227734, 506948616,
   659060556, 883997877, 958139571, 1322822218, 1537002063,
   1747873779, 1955562222, 2024104815, 2227730452, 2361852424,
   2428436474, 2756734187, 3204031479, 3329325298]

structure Sha8 where
  a : Nat
  b : Nat
  c : Nat
  d : Nat
  e : Nat
  f : Nat
  g : Nat
  h : Nat
  deriving Repr, DecidableEq

def shaH0 : Sha8 :=
  ⟨1779033703, 3144134277, 1013904242, 2773480762,
   1359893119, 2600822924, 528734635, 1541459225⟩

def bytesToWords : List Nat → List Nat
  | a :: b :: c :: d :: rest =>
    (((a * 256 + b) * 256 + c) * 256 + d) :: bytesToWords rest
  | _ => []

/-- Message-schedule extension: `acc` holds the words produced so far,
most recent first; 48 new words are prepended. -/
def extendLoop : Nat → List Nat → List Nat
  | 0, acc => acc
  | n + 1, acc =>
    extendLoop n
      (w32 (ssig1 (acc.getD 1 0) + acc.getD 6 0 + ssig0 (acc.getD 14 0) + acc.getD 15 0)
        :: acc)

def shaRound (st : Sha8) (kw w : Nat) : Sha8 :=
  let t1 := w32 (st.h + bsig1 st.e + shaCh st.e st.f st.g + kw + w)
  let t2 := w32 (bsig0 st.a + shaMaj st.a st.b st.c)
  ⟨w32 (t1 + t2), st.a, st.b, st.c, w32 (st.d + t1), st.e, st.f, st.g⟩

def shaCompress (hs : Sha8) (chunk : List Nat) : Sha8 :=
  let ws := (extendLoop 48 (bytesToWords chunk).reverse).reverse
  let fin := (List.zip shaK ws).foldl (fun st p => shaRound st p.1 p.2) hs
  ⟨w32 (hs.a + fin.a), w32 (hs.b + fin.b), w32 (hs.c + fin.c), w32 (hs.d + fin.d),
   w32 (hs.e + fin.e), w32 (hs.f + fin.f), w32 (hs.g + fin.g), w32 (hs.h + fin.h)⟩

/-- `k`-byte big-endian representation of `n`. -/
def toBytesBE : Nat → Nat → List Nat
  | 0, _ => []
  | k + 1, n => toBytesBE k (n / 256) ++ [n % 256]

def shaPad (msg : List Nat) : List Nat :=
  msg ++ [128] ++ List.replicate ((119 - msg.length % 64) % 64) 0
    ++ toBytesBE 8 (8 * msg.length)

def chunks64 : Nat → List Nat → List (List Nat)
  | _, [] => []
  | 0, _ => []
  | fuel + 1, bs => bs.take 64 :: chunks64 fuel (bs.drop 64)

def sha256 (msg : List Nat) : List Nat :=
  let padded := shaPad msg
  let fin := (chunks64 padded.length padded).foldl shaCompress shaH0
  toBytesBE 4 fin.a ++ toBytesBE 4 fin.b ++ toBytesBE 4 fin.c ++ toBytesBE 4 fin.d
    ++ toBytesBE 4 fin.e ++ toBytesBE 4 fin.f ++ toBytesBE 4 fin.g ++ toBytesBE 4 fin.h

/-- `str.encode("ascii")`: the verifiers produced by the code are URL-safe
ASCII, on which the encoding is the identity on code points. -/
def asciiEncode (s : String) : List Nat := s.data.map Char.toNat

def b64urlAlphabet : List Char :=
  "ABCDEFGHIJKLMNOPQRSTUVWXYZabcdefghijklmnopqrstuvwxyz0123456789-_".toList

def b64char (n : Nat) : Char := b64urlAlphabet.getD n 'A'

/-- `base64.urlsafe_b64encode` on a byte list, `=`-padded. -/
def b64urlEncode : List Nat → List Char
  | [] => []
  | [a] => [b64char (a / 4), b64char (a % 4 * 16), '=', '=']
  | [a, b] => [b64char (a / 4), b64char (a % 4 * 16 + b / 16), b64char (b % 16 * 4), '=']
  | a :: b :: c :: rest =>
    b64char (a / 4) :: b64char (a % 4 * 16 + b / 16) ::
      b64char (b % 16 * 4 + c / 64) :: b64char (c % 64) :: b64urlEncode rest

/-- `bytes.rstrip(b"=")`: remove trailing occurrences of a character. -/
def rstripChar (ch : Char) (l : List Char) : List Char :=
  (l.reverse.dropWhile (fun c => c = ch)).reverse

/-- `_generate_code_challenge`: S256 challenge derivation
(`urlsafe_b64encode(sha256(verifier.encode("ascii")).digest()).rstrip(b"=")`). -/
def generateCodeChallenge (v : String) : String :=
  ⟨rstripChar '=' (b64urlEncode (sha256 (asciiEncode v)))⟩

/-- Modelled from the spec: "the S256 transform applied to the
RFC-mandated ASCII encoding of the verifier", i.e. base64url without
padding characters of the SHA-256 digest of the verifier's ASCII bytes. -/
def s256Transform (v : String) : String :=
  ⟨rstripChar '=' (b64urlEncode (sha256 (asciiEncode v)))⟩

set_option maxRecDepth 100000 in
/-- Validation of the embedded hash against the FIPS 180-4 test vector
for `"abc"`. -/
theorem sha256_abc_vector :
    sha256 (asciiEncode "abc") =
      [186, 120, 22, 191, 143, 1, 207, 234,
       65, 65, 64, 222, 93, 174, 34, 35,
       176, 3, 97, 163, 150, 23, 122, 156,
       180, 16, 255, 97, 242, 0, 21, 173] := by
  decide

theorem head_dropWhile_not (p : Char → Bool) :
    ∀ (l : List Char) (c : Char), (l.dropWhile p).head? = some c → p c = false := by
  intro l
  induction l with
  | nil => intro c h; simp [List.dropWhile] at h
  | cons x xs ih =>
    intro c h
    rw [List.dropWhile_cons] at h
    split at h
    · exact ih c h
    · rename_i hb
      simp only [List.head?_cons, Option.some.injEq] at h
      subst h
      simpa using hb

theorem rstrip_getLast_ne (ch : Char) (l : List Char) (c : Char)
    (h : (rstripChar ch l).getLast? = some c) : c ≠ ch := by
  have hh : ((l.reverse.dropWhile (fun x => x = ch)).head?) = some c := by
    simpa [rstripChar, List.getLast?_reverse] using h
  have := head_dropWhile_not (fun x => x = ch) l.reverse c hh
  simpa using this

/-! ## URL query parsing (`_extract_code_from_redirect`)

`_extract_code_from_redirect` runs `urlparse(url)` and
`parse_qs(parsed.query)` and returns the first value listed under the
`code` key.  `urlparse` takes the query as the part after the first `?`
of the pre-fragment portion (the fragment being everything after the
first `#`); `parse_qs` splits fields on `&`, skips empty fields, fields
without `=` and fields with an empty raw value (`keep_blank_values`
defaults to false), and percent-plus-decodes names and values. -/

def isHexDigit (c : Char) : Bool :=
  ('0' ≤ c ∧ c ≤ '9') ∨ ('a' ≤ c ∧ c ≤ 'f') ∨ ('A' ≤ c ∧ c ≤ 'F')

def hexVal (c : Char) : Nat :=
  if '0' ≤ c ∧ c ≤ '9' then c.toNat - '0'.toNat
  else if 'a' ≤ c ∧ c ≤ 'f' then c.toNat - 'a'.toNat + 10
  else c.toNat - 'A'.toNat + 10

/-- `urllib.parse.unquote_plus` restricted to single-byte (ASCII) escapes:
`+` becomes a space and a valid `%XX` escape becomes the byte's
character; malformed escapes are passed through unchanged. -/
def unquotePlus : List Char → List Char
  | [] => []
  | '+' :: rest => ' ' :: unquotePlus rest
  | '%' :: a :: b :: rest =>
    if isHexDigit a ∧ isHexDigit b then
      Char.ofNat (16 * hexVal a + hexVal b) :: unquotePlus rest
    else '%' :: unquotePlus (a :: b :: rest)
  | c :: rest => c :: unquotePlus rest

def splitOnChar (sep : Char) : List Char → List (List Char)
  | [] => [[]]
  | c :: rest =>
    let r := splitOnChar sep rest
    if c = sep then [] :: r
    else match r with
      | [] => [[c]]
      | g :: gs => (c :: g) :: gs

/-- Split a field at its first `=`, if any. -/
def splitFirstEq : List Char → Option (List Char × List Char)
  | [] => none
  | '=' :: rest => some ([], rest)
  | c :: rest => (splitFirstEq rest).map (fun p => (c :: p.1, p.2))

/-- The query component of a URL as computed by `urlparse`: the part of
the pre-fragment portion after its first `?`. -/
def urlQuery (url : List Char) : List Char :=
  let pre := url.takeWhile (fun c => c ≠ '#')
  match pre.dropWhile (fun c => c ≠ '?') with
  | [] => []
  | _ :: q => q

/-- `parse_qs` flattened to an association list in field order, with the
skipping and decoding behavior described above. -/
def parseQsPairs (q : List Char) : List (String × String) :=
  (splitOnChar '&' q).filterMap fun field =>
    match splitFirstEq field with
    | none => none
    | some (k, v) =>
      if v = [] then none
      else some (⟨unquotePlus k⟩, ⟨unquotePlus v⟩)

/-- `HyperopticAuth._extract_code_from_redirect`. -/
def extractCodeFromRedirect (url : String) : Option String :=
  ((parseQsPairs (urlQuery url.data)).find? (fun p => p.1 = "code")).map (fun p => p.2)

/-! ## The redirect-chain walk (`_follow_redirects_for_code`)

The HTTP GETs the walk performs are modelled by a function giving, for
each `k`, the status and `Location` header (`""` when absent, matching
`headers.get("location", "")`) of the `k`-th GET.  The walk returns the
found code together with the number of GETs it performed. -/

structure RedirectResp where
  status : Nat
  location : String
  deriving Repr, DecidableEq

def isRedirectStatus (s : Nat) : Bool :=
  s = 301 ∨ s = 302 ∨ s = 303 ∨ s = 307 ∨ s = 308

/-- The `for _ in range(5)` loop body of `_follow_redirects_for_code`:
`k` counts GETs performed so far, `loc` is the `Location` of the
response currently under inspection. -/
def followLoop (chainGet : Nat → RedirectResp) : Nat → Nat → String → Option String × Nat
  | 0, k, _ => (none, k)
  | fuel + 1, k, loc =>
    match extractCodeFromRedirect loc with
    | some c => (some c, k)
    | none =>
      if loc = "" then (none, k)
      else
        let r := chainGet k
        if isRedirectStatus r.status then followLoop chainGet fuel (k + 1) r.location
        else (none, k + 1)

/-- `HyperopticAuth._follow_redirects_for_code`, entered with the
`Location` of the login-form POST response. -/
def followRedirectsForCode (chainGet : Nat → RedirectResp) (loc : String) :
    Option String × Nat :=
  followLoop chainGet 5 0 loc

/-- Modelled from the amended claim: the walk checks the initial
`Location` and the `Location` headers of the first four fetched
responses for a `code` parameter, stopping early on a missing
`Location` or a non-redirect fetched status; the response of a fifth
GET is never examined for a code. -/
def amendedWalk (chainGet : Nat → RedirectResp) : Nat → Nat → String → Option String
  | 0, _, loc => extractCodeFromRedirect loc
  | fuel + 1, k, loc =>
    match extractCodeFromRedirect loc with
    | some c => some c
    | none =>
      if loc = "" then none
      else
        let r := chainGet k
        if isRedirectStatus r.status then amendedWalk chainGet fuel (k + 1) r.location
        else none

theorem followLoop_fst_eq_amendedWalk (chainGet : Nat → RedirectResp) :
    ∀ (fuel k : Nat) (loc : String),
      (followLoop chainGet (fuel + 1) k loc).1 = amendedWalk chainGet fuel k loc := by
  intro fuel
  induction fuel with
  | zero =>
    intro k loc
    unfold followLoop amendedWalk
    cases hc : extractCodeFromRedirect loc with
    | some c => simp [hc]
    | none =>
      simp only [hc]
      by_cases hl : loc = ""
      · simp [hl]
      · rw [if_neg hl]
        split
        · simp [followLoop]
        · rfl
  | succ n ih =>
    intro k loc
    unfold followLoop amendedWalk
    cases hc : extractCodeFromRedirect loc with
    | some c => simp [hc]
    | none =>
      simp only [hc]
      by_cases hl : loc = ""
      · simp [hl]
      · rw [if_neg hl, if_neg hl]
        split
        · exact ih (k + 1) _
        · rfl

theorem followLoop_count_le (chainGet : Nat → RedirectResp) :
    ∀ (fuel k : Nat) (loc : String), (followLoop chainGet fuel k loc).2 ≤ k + fuel := by
  intro fuel
  induction fuel with
  | zero => intro k loc; simp [followLoop]
  | succ n ih =>
    intro k loc
    unfold followLoop
    cases hc : extractCodeFromRedirect loc with
    | some c => simp [hc]
    | none =>
      simp only [hc]
      by_cases hl : loc = ""
      · simp [hl]
      · rw [if_neg hl]
        split
        · exact le_trans (ih (k + 1) (chainGet k).location) (by omega)
        · have hk : k + 1 ≤ k + (n + 1) := by omega
          simpa using hk

/-! ## The login-form scraper (`_extract_form_action`)

`_extract_form_action` runs two `re.IGNORECASE` searches:

  pattern 1: `<form[^>]*\baction=["...]([^"...]+)["...][^>]*\bmethod=["...]post["...]`
  pattern 2: `<form[^>]*\bmethod=["...]post["...][^>]*\baction=["...]([^"...]+)["...]`

(each `["...]` being the character class of the two quote characters)
and HTML-entity-decodes the capture of the first pattern that matches.
The two patterns are embedded as an explicit backtracking matcher with
Python's semantics: `re.search` tries start positions left to right; a
greedy `[^>]*` prefers the longest consumption, so later occurrences of
the following literal are tried first; `\b` requires a non-word
character before the literal; the capture `([^"...]+)` is a nonempty run
ending at the first quote character. -/

def isQuoteChar (c : Char) : Bool := c = '"' ∨ c = '\''

def isWordChar (c : Char) : Bool := c.isAlphanum ∨ c = '_'

/-- First-success choice, the backtracking preference order. -/
def pick {α : Type} : Option α → Option α → Option α
  | some a, _ => some a
  | none, b => b

/-- Case-insensitive literal match: `pat` is given lowercase; on success
returns the rest of the input. -/
def matchCI : List Char → List Char → Option (List Char)
  | [], s => some s
  | _ :: _, [] => none
  | p :: ps, c :: cs => if c.toLower = p then matchCI ps cs else none

/-- `[^>]*\b<tok>` followed by continuation `cont`, greedy: deeper
consumption (hence a later occurrence of `tok`) is preferred; `prev` is
the character preceding the current position, used for the `\b`
word-boundary test. -/
def gapThen (tok : List Char) (cont : List Char → Option (List Char)) :
    Char → List Char → Option (List Char)
  | _, [] => none
  | prev, c :: cs =>
    pick (if c = '>' then none else gapThen tok cont c cs)
      (if isWordChar prev then none else (matchCI tok (c :: cs)).bind cont)

/-- The capture `([^"...]+)["...]`: a nonempty run of non-quote characters
ending at the first quote; returns the capture, the closing quote and
the rest. -/
def captureGroup (s : List Char) : Option (List Char × Char × List Char) :=
  match s.dropWhile (fun c => !isQuoteChar c) with
  | [] => none
  | q :: rest =>
    let cap := s.takeWhile (fun c => !isQuoteChar c)
    if cap.isEmpty then none else some (cap, q, rest)

/-- Pattern 1 continuation after the captured action value:
`[^>]*\bmethod=["...]post["...]`. -/
def methodTail (cap : List Char) (prev : Char) (s : List Char) : Option (List Char) :=
  gapThen "method=".toList
    (fun r =>
      match r with
      | q1 :: r2 =>
        if isQuoteChar q1 then
          match matchCI "post".toList r2 with
          | none => none
          | some r3 =>
            match r3 with
            | q2 :: _ => if isQuoteChar q2 then some cap else none
            | [] => none
        else none
      | [] => none)
    prev s

/-- Pattern 1 continuation at `action=`: quote, capture, then the
method tail. -/
def actionCont (s : List Char) : Option (List Char) :=
  match s with
  | q :: rest =>
    if isQuoteChar q then
      match captureGroup rest with
      | none => none
      | some (cap, closer, r3) => methodTail cap closer r3
    else none
  | [] => none

/-- Pattern 1 anchored at a start position. -/
def matchP1At (s : List Char) : Option (List Char) :=
  match matchCI "<form".toList s with
  | none => none
  | some rest => gapThen "action=".toList actionCont 'm' rest

/-- Pattern 2 continuation at `action=` (the pattern ends after the
capture's closing quote). -/
def action2Cont (s : List Char) : Option (List Char) :=
  match s with
  | q :: rest =>
    if isQuoteChar q then
      match captureGroup rest with
      | none => none
      | some (cap, _, _) => some cap
    else none
  | [] => none

/-- Pattern 2 continuation at `method=`: quote, `post`, quote, then
`[^>]*\baction=` with the capture. -/
def method2Cont (s : List Char) : Option (List Char) :=
  match s with
  | q1 :: r2 =>
    if isQuoteChar q1 then
      match matchCI "post".toList r2 with
      | none => none
      | some r3 =>
        match r3 with
        | q2 :: r4 =>
          if isQuoteChar q2 then gapThen "action=".toList action2Cont q2 r4 else none
        | [] => none
    else none
  | [] => none

/-- Pattern 2 anchored at a start position. -/
def matchP2At (s : List Char) : Option (List Char) :=
  match matchCI "<form".toList s with
  | none => none
  | some rest => gapThen "method=".toList method2Cont 'm' rest

/-- `re.search`: try every start position, leftmost first. -/
def searchPat (patAt : List Char → Option (List Char)) : List Char → Option (List Char)
  | [] => patAt []
  | s@(_ :: rest) => pick (patAt s) (searchPat patAt rest)

def stripPre (p : List Char) (s : List Char) : Option (List Char) :=
  match p, s with
  | [], s => some s
  | _ :: _, [] => none
  | a :: ps, c :: cs => if c = a then stripPre ps cs else none

/-- Decimal digits of a numeric character reference up to the
terminating `;`. -/
def decDigits (acc : Nat) : List Char → Option (Nat × List Char)
  | ';' :: rest => some (acc, rest)
  | c :: rest => if c.isDigit then decDigits (10 * acc + (c.toNat - 48)) rest else none
  | [] => none

/-- Hexadecimal digits of a numeric character reference up to the
terminating `;`. -/
def hexDigitsRef (acc : Nat) : List Char → Option (Nat × List Char)
  | ';' :: rest => some (acc, rest)
  | c :: rest => if isHexDigit c then hexDigitsRef (16 * acc + hexVal c) rest else none
  | [] => none

/-- A numeric character reference after the `&`: `#` followed by
decimal digits, or `#x`/`#X` followed by hexadecimal digits, up to a
`;`. -/
def numRef : List Char → Option (Nat × List Char)
  | '#' :: 'x' :: c :: rest => if isHexDigit c then hexDigitsRef (hexVal c) rest else none
  | '#' :: 'X' :: c :: rest => if isHexDigit c then hexDigitsRef (hexVal c) rest else none
  | '#' :: c :: rest => if c.isDigit then decDigits (c.toNat - 48) rest else none
  | _ => none

/-- Models `html.unescape` restricted to the five standard named
character references and to semicolon-terminated decimal/hexadecimal
numeric references of valid scalar values; the rest of the HTML5 named
table, the legacy semicolon-less forms and the special replacements of
control-range code points are not reproduced (the theorems below only
quantify over values whose ampersands introduce `&amp;`, where this
model agrees with the library).  The fuel argument only bounds the
recursion: every step consumes at least one input character, so a fuel
equal to the input length never runs out. -/
def htmlUnescapeFuel : Nat → List Char → List Char
  | 0, s => s
  | _, [] => []
  | fuel + 1, '&' :: rest =>
    match stripPre "amp;".toList rest with
    | some r => '&' :: htmlUnescapeFuel fuel r
    | none =>
      match stripPre "lt;".toList rest with
      | some r => '<' :: htmlUnescapeFuel fuel r
      | none =>
        match stripPre "gt;".toList rest with
        | some r => '>' :: htmlUnescapeFuel fuel r
        | none =>
          match stripPre "quot;".toList rest with
          | some r => '"' :: htmlUnescapeFuel fuel r
          | none =>
            match stripPre "apos;".toList rest with
            | some r => '\'' :: htmlUnescapeFuel fuel r
            | none =>
              match numRef rest with
              | some (n, r) => Char.ofNat n :: htmlUnescapeFuel fuel r
              | none => '&' :: htmlUnescapeFuel fuel rest
  | fuel + 1, c :: rest => c :: htmlUnescapeFuel fuel rest

def htmlUnescape (s : List Char) : List Char := htmlUnescapeFuel s.length s

/-- Does any suffix of the list start, case-insensitively, with the
given literal? -/
def hasTokCI (tok : List Char) : List Char → Bool
  | [] => (matchCI tok []).isSome
  | s@(_ :: rest) => (matchCI tok s).isSome || hasTokCI tok rest

/-- Every ampersand in the list introduces a literal `&amp;` — the only
character-reference shape appearing in a form-encoded URL — so that
entity decoding on the list is fully described by the `amp` rule. -/
def ampEntitiesOnly : Nat → List Char → Bool
  | 0, s => s.isEmpty
  | _, [] => true
  | fuel + 1, '&' :: rest =>
    match stripPre "amp;".toList rest with
    | some r => ampEntitiesOnly fuel r
    | none => false
  | fuel + 1, _ :: rest => ampEntitiesOnly fuel rest

/-- `HyperopticAuth._extract_form_action`: search pattern 1, then
pattern 2, and HTML-entity-decode the capture. -/
def extractFormAction (html : String) : Option String :=
  match pick (searchPat matchP1At html.data) (searchPat matchP2At html.data) with
  | none => none
  | some cap => some ⟨htmlUnescape cap⟩

/-! ## The Auth Manager (`HyperopticAuth`)

The mutable `self._tokens` field is threaded explicitly as an
`Option TokenSet`; exceptions become `Except`; the HTTP transport is an
`AuthEnv` giving the response of each endpoint the auth code can hit
during one call.  Each method also returns a trace of the calls it
made, used to state the "exactly once" parts of the claims.  The PKCE
verifier/challenge pair only feeds request parameters, which the
environment abstracts over, so it does not appear in the model. -/

inductive AuthError where
  | authenticationError (msg : String)
  | assertionError
  deriving Repr, DecidableEq

inductive AuthEvent where
  | loginCall
  | passwordGrantCall
  | pkceCall
  | refreshCall
  | store
  deriving Repr, DecidableEq

def countE (e : AuthEvent) : List AuthEvent → Nat
  | [] => 0
  | x :: tr => (if x = e then 1 else 0) + countE e tr

structure TokenResp where
  status : Nat
  text : String
  json : TokenJSON

structure PageResp where
  status : Nat
  text : String

structure AuthEnv where
  passwordGrant : TokenResp
  loginPage : PageResp
  formPost : RedirectResp
  chainGet : Nat → RedirectResp
  tokenExchange : TokenResp
  refreshPost : TokenResp

structure AuthOut (α : Type) where
  result : Except AuthError α
  tokens : Option TokenSet
  trace : List AuthEvent

/-- `HyperopticAuth._login_password_grant` (strategy A): POST the
password grant; non-200 raises `AuthenticationError`, 200 stores the
parsed body. -/
def loginPasswordGrant (env : AuthEnv) (now : Int) (st : Option TokenSet) : AuthOut Unit :=
  if env.passwordGrant.status ≠ 200 then
    { result := .error (.authenticationError
        ("Password grant failed (" ++ toString env.passwordGrant.status ++ "): "
          ++ env.passwordGrant.text)),
      tokens := st,
      trace := [.passwordGrantCall] }
  else
    { result := .ok (), tokens := some (storeTokens now env.passwordGrant.json),
      trace := [.passwordGrantCall, .store] }

/-- The authorization code obtained in step 2 of the PKCE flow: from
the form-POST redirect's `Location` directly, or else by the manual
redirect-chain walk. -/
def pkceCode (env : AuthEnv) : Option String :=
  match extractCodeFromRedirect env.formPost.location with
  | some c => some c
  | none => (followRedirectsForCode env.chainGet env.formPost.location).1

/-- `HyperopticAuth._login_pkce_flow` (strategy B). -/
def loginPkceFlow (env : AuthEnv) (now : Int) (st : Option TokenSet) : AuthOut Unit :=
  if env.loginPage.status ≠ 200 then
    ⟨.error (.authenticationError "Failed to load Keycloak login page"), st, [.pkceCall]⟩
  else
    match extractFormAction env.loginPage.text with
    | none =>
      ⟨.error (.authenticationError "Could not find login form action URL in Keycloak page"),
        st, [.pkceCall]⟩
    | some _ =>
      if env.formPost.status = 302 ∨ env.formPost.status = 303 then
        match pkceCode env with
        | none =>
          ⟨.error (.authenticationError "Could not extract authorization code from redirect"),
            st, [.pkceCall]⟩
        | some _ =>
          if env.tokenExchange.status ≠ 200 then
            ⟨.error (.authenticationError "Token exchange failed"), st, [.pkceCall]⟩
          else
            ⟨.ok (), some (storeTokens now env.tokenExchange.json), [.pkceCall, .store]⟩
      else
        ⟨.error (.authenticationError "Expected redirect after login"), st, [.pkceCall]⟩

/-- `HyperopticAuth.login`: strategy A, falling back to strategy B when
A raises `AuthenticationError` (the only exception class caught). -/
def login (env : AuthEnv) (now : Int) (st : Option TokenSet) : AuthOut Unit :=
  let o1 := loginPasswordGrant env now st
  match o1.result with
  | .ok _ => { o1 with trace := .loginCall :: o1.trace }
  | .error (.authenticationError _) =>
    let o2 := loginPkceFlow env now o1.tokens
    { result := o2.result, tokens := o2.tokens, trace := .loginCall :: (o1.trace ++ o2.trace) }
  | .error e => { result := .error e, tokens := o1.tokens, trace := .loginCall :: o1.trace }

/-- `HyperopticAuth._refresh`: non-200 falls back to a full login; 200
replaces the token set.  The leading `assert self._tokens is not None`
is the `none` arm. -/
def refresh (env : AuthEnv) (now : Int) (st : Option TokenSet) : AuthOut Unit :=
  match st with
  | none => ⟨.error .assertionError, st, [.refreshCall]⟩
  | some _ =>
    if env.refreshPost.status ≠ 200 then
      let o := login env now st
      ⟨o.result, o.tokens, .refreshCall :: o.trace⟩
    else
      ⟨.ok (), some (storeTokens now env.refreshPost.json), [.refreshCall, .store]⟩

/-- The tail of the `access_token` property after a refresh/re-login
dispatch: the final `return self._tokens.access_token`, with the
attribute access on a still-empty token set as the `assertionError`
arm (proven unreachable below). -/
def atrFinish (o : AuthOut Unit) : AuthOut String :=
  match o.result with
  | .error e => ⟨.error e, o.tokens, o.trace⟩
  | .ok _ =>
    match o.tokens with
    | none => ⟨.error .assertionError, o.tokens, o.trace⟩
    | some ts2 => ⟨.ok ts2.access_token, some ts2, o.trace⟩

/-- The `HyperopticAuth.access_token` property: login when
unauthenticated, then refresh or re-login when expired, then return the
held access token (`atrFinish`). -/
def accessTokenRead (env : AuthEnv) (now : Int) (st : Option TokenSet) : AuthOut String :=
  let o1 : AuthOut Unit :=
    match st with
    | none => login env now st
    | some _ => ⟨.ok (), st, []⟩
  match o1.result with
  | .error e => ⟨.error e, o1.tokens, o1.trace⟩
  | .ok _ =>
    match o1.tokens with
    | none => ⟨.error .assertionError, o1.tokens, o1.trace⟩
    | some ts =>
      if ts.access_expired now then
        let o2 : AuthOut Unit :=
          if ts.refresh_expired now then login env now (some ts)
          else refresh env now (some ts)
        atrFinish ⟨o2.result, o2.tokens, o1.trace ++ o2.trace⟩
      else ⟨.ok ts.access_token, some ts, o1.trace⟩

/-- All token bodies the environment can deliver describe access tokens
that are not already expired at issuance (i.e. `expires_in > 30`; the
defaulted 300 qualifies).  This holds of any sane realm and is needed
for the "exactly once" dispatch statements, since a token that is born
expired makes the property re-dispatch. -/
def envTokensFresh (env : AuthEnv) (now : Int) : Prop :=
  (storeTokens now env.passwordGrant.json).access_expired now = false ∧
  (storeTokens now env.tokenExchange.json).access_expired now = false ∧
  (storeTokens now env.refreshPost.json).access_expired now = false

/-! ## The API client (`HyperopticClient._request`) -/

structure ApiResp where
  status : Nat
  text : String
  url : String
  deriving Repr, DecidableEq

/-- `exceptions.APIError`: carries status code, body and request URL. -/
structure APIError where
  status_code : Nat
  message : String
  url : String
  deriving Repr, DecidableEq

inductive ClientError where
  | authFailure (e : AuthError)
  | apiFailure (e : APIError)
  deriving Repr, DecidableEq

structure ClientOut where
  result : Except ClientError String
  tokens : Option TokenSet
  trace : List AuthEvent
  sentTokens : List String

/-- `HyperopticClient._request`: attach the Auth Manager's token, send;
on 401 re-login once and send once more with the freshly read token; any
final status ≥ 400 raises `APIError` with status, body and URL.
`resp1`/`resp2` are the responses the transport would give to the first
and second send; `sentTokens` records the bearer token attached to each
send actually performed; the JSON body is represented by `text`. -/
def clientRequest (env : AuthEnv) (now : Int) (st : Option TokenSet)
    (resp1 resp2 : ApiResp) : ClientOut :=
  let o1 := accessTokenRead env now st
  match o1.result with
  | .error e => ⟨.error (.authFailure e), o1.tokens, o1.trace, []⟩
  | .ok tok1 =>
    if resp1.status = 401 then
      let o2 := login env now o1.tokens
      match o2.result with
      | .error e => ⟨.error (.authFailure e), o2.tokens, o1.trace ++ o2.trace, [tok1]⟩
      | .ok _ =>
        let o3 := accessTokenRead env now o2.tokens
        match o3.result with
        | .error e =>
          ⟨.error (.authFailure e), o3.tokens, o1.trace ++ o2.trace ++ o3.trace, [tok1]⟩
        | .ok tok2 =>
          if resp2.status ≥ 400 then
            ⟨.error (.apiFailure ⟨resp2.status, resp2.text, resp2.url⟩), o3.tokens,
              o1.trace ++ o2.trace ++ o3.trace, [tok1, tok2]⟩
          else
            ⟨.ok resp2.text, o3.tokens, o1.trace ++ o2.trace ++ o3.trace, [tok1, tok2]⟩
    else if resp1.status ≥ 400 then
      ⟨.error (.apiFailure ⟨resp1.status, resp1.text, resp1.url⟩), o1.tokens, o1.trace, [tok1]⟩
    else
      ⟨.ok resp1.text, o1.tokens, o1.trace, [tok1]⟩

/-- Action values for which the canonical quoted-attribute documents
are provably matched and the decode provably agrees with the library:
nonempty, quote-free, `<`-free, containing no case-insensitive
occurrence of either attribute literal `action=` or `method=` (which
would open a competing backtracking branch inside the value), and with
every ampersand introducing `&amp;` (the shape form-encoded URLs use,
and the fragment of `html.unescape` the model reproduces exactly). -/
def goodActionValue (a : List Char) : Prop :=
  a ≠ [] ∧ hasTokCI "action=".toList a = false ∧
    hasTokCI "method=".toList a = false ∧
    ampEntitiesOnly a.length a = true ∧
    ∀ c ∈ a, c.toLower ≠ '<' ∧ c ≠ '"' ∧ c ≠ '\''

/-! ## Concrete environments used by witnesses -/

def emptyTJ : TokenJSON := { access_token := "", refresh_token := "" }

/-- Password grant rejected (400) and a form-less login page. -/
def envNoForm : AuthEnv :=
  { passwordGrant := { status := 400, text := "unauthorized_client", json := emptyTJ },
    loginPage := { status := 200, text := "<html><body>no form here</body></html>" },
    formPost := { status := 302, location := "" },
    chainGet := fun _ => { status := 302, location := "" },
    tokenExchange := { status := 200, text := "", json := emptyTJ },
    refreshPost := { status := 200, text := "", json := emptyTJ } }

/-- Healthy password grant but a revoked refresh token (400). -/
def envRefreshRevoked : AuthEnv :=
  { passwordGrant :=
      { status := 200, text := "", json := { access_token := "A1", refresh_token := "R1" } },
    loginPage := { status := 200, text := "" },
    formPost := { status := 302, location := "" },
    chainGet := fun _ => { status := 302, location := "" },
    tokenExchange := { status := 200, text := "", json := emptyTJ },
    refreshPost := { status := 400, text := "invalid_grant", json := emptyTJ } }

end Hyperoptic

namespace Hyperoptic

/-! ## Claim C6: expiry predicates -/

/-- C6: `access_expired` is true iff `now ≥ access_expires_at − 30` and
`refresh_expired` is true iff `now ≥ refresh_expires_at − 30`; a freshly
constructed `TokenSet` with `expires_in = 300` reports `access_expired`
false; a `TokenSet` whose access expiry lies 10 seconds in the past
reports `access_expired` true while its default 1800-second refresh
window still reports `refresh_expired` false. -/
theorem claim_C6_expiry_predicates :
    (∀ (ts : TokenSet) (now : Int),
        (ts.access_expired now = true ↔ now ≥ ts.expiresAt - 30) ∧
        (ts.refresh_expired now = true ↔ now ≥ ts.refreshExpiresAt - 30)) ∧
    (∀ (now : Int) (a r : String),
        (TokenSet.make now a r "" "Bearer" 300 1800 "").access_expired now = false) ∧
    (∀ (now : Int) (a r : String),
        (({ access_token := a, refresh_token := r,
            expiresAt := now - 10,
            refreshExpiresAt := now + 1800 : TokenSet }).access_expired now = true ∧
         ({ access_token := a, refresh_token := r,
            expiresAt := now - 10,
            refreshExpiresAt := now + 1800 : TokenSet }).refresh_expired now = false)) := by
  refine ⟨fun ts now => ⟨?_, ?_⟩, fun now a r => ?_, fun now a r => ⟨?_, ?_⟩⟩ <;>
    simp [TokenSet.access_expired, TokenSet.refresh_expired, TokenSet.make] <;> omega

/-! ## Claim C9: `_store_tokens` defaulting -/

/-- C9: constructing a `TokenSet` from a token response defaults every
absent optional field: `expires_in` to 300 seconds, `refresh_expires_in`
to 1800 seconds, `id_token` to `""`, `token_type` to `"Bearer"` and
`scope` to `""`; construction succeeds without those fields. -/
theorem claim_C9_store_tokens_defaults :
    (∀ (now : Int) (d : TokenJSON),
        (storeTokens now d).expires_in = d.expires_in.getD 300 ∧
        (storeTokens now d).refresh_expires_in = d.refresh_expires_in.getD 1800 ∧
        (storeTokens now d).id_token = d.id_token.getD "" ∧
        (storeTokens now d).token_type = d.token_type.getD "Bearer" ∧
        (storeTokens now d).scope = d.scope.getD "") ∧
    (∀ (now : Int) (a r : String),
        storeTokens now { access_token := a, refresh_token := r } =
          { access_token := a, refresh_token := r,
            id_token := "", token_type := "Bearer",
            expires_in := 300, refresh_expires_in := 1800, scope := "",
            expiresAt := now + 300, refreshExpiresAt := now + 1800 }) := by
  exact ⟨fun now d => ⟨rfl, rfl, rfl, rfl, rfl⟩, fun now a r => rfl⟩

/-! ## Claim C7: `derive_code_challenge` -/

/-- C7: `_generate_code_challenge` is deterministic (equal inputs yield
equal outputs), its output equals base64url-without-padding of the
SHA-256 digest of the ASCII encoding of the verifier, and the output
never ends with a `=` padding character. -/
theorem claim_C7_code_challenge :
    (∀ v1 v2 : String, v1 = v2 → generateCodeChallenge v1 = generateCodeChallenge v2) ∧
    (∀ v : String, generateCodeChallenge v = s256Transform v) ∧
    (∀ (v : String) (c : Char),
        (generateCodeChallenge v).data.getLast? = some c → c ≠ '=') := by
  refine ⟨fun v1 v2 h => by rw [h], fun v => rfl, fun v c h => ?_⟩
  exact rstrip_getLast_ne '=' (b64urlEncode (sha256 (asciiEncode v))) c h

/-- Witness for C7 at the concrete verifier `"abc"`. -/
theorem claim_C7_code_challenge_witness :
    generateCodeChallenge "abc" = generateCodeChallenge "abc" :=
  claim_C7_code_challenge.1 "abc" "abc" rfl

/-! ## Claim C5: the redirect-chain walk -/

/-- Validation of the query parsing against the spec's example
(section 8): `?code=abc123&state=xyz` yields `abc123`, and a URL
without a `code` parameter yields absent. -/
theorem extractCode_examples :
    extractCodeFromRedirect "https://host/path?code=abc123&state=xyz" = some "abc123" ∧
    extractCodeFromRedirect "https://host/path?state=xyz" = none := by
  exact ⟨by decide, by decide⟩

/-- The environment of the C5 counterexample: GETs 0–3 are redirects to
a code-free location; GET 4 is a redirect whose `Location` carries
`code=abc`. -/
def chainGetC5 : Nat → RedirectResp := fun n =>
  if n = 4 then ⟨302, "https://x/cb?code=abc"⟩ else ⟨302, "https://x/step"⟩

/-- C5 counterexample: although the fifth GET is performed and its
response is a redirect whose `Location` carries a `code` parameter, the
walk returns absent — the fifth fetched response is never checked for a
code, contradicting the claim that each fetched response is checked and
the code returned as soon as found. -/
theorem claim_C5_counterexample :
    (followRedirectsForCode chainGetC5 "https://x/start").1 = none ∧
    (followRedirectsForCode chainGetC5 "https://x/start").2 = 5 ∧
    isRedirectStatus (chainGetC5 4).status = true ∧
    extractCodeFromRedirect (chainGetC5 4).location = some "abc" := by
  exact ⟨by decide, by decide, by decide, by decide⟩

/-- C5 (amended): the walk performs at most 5 GETs, and its result is
exactly that of checking the initial `Location` and the `Location`
headers of the first four fetched responses for a `code` parameter —
returning the first code found, stopping early with absent on a missing
`Location` or a non-redirect fetched status — while the fifth fetched
response's `Location` is never examined for a code; additionally, a code
present in the initial `Location` is returned with no GET performed. -/
theorem claim_C5_redirect_walk (chainGet : Nat → RedirectResp) (loc : String) :
    (followRedirectsForCode chainGet loc).1 = amendedWalk chainGet 4 0 loc ∧
    (followRedirectsForCode chainGet loc).2 ≤ 5 ∧
    (∀ c, extractCodeFromRedirect loc = some c →
      followRedirectsForCode chainGet loc = (some c, 0)) := by
  refine ⟨followLoop_fst_eq_amendedWalk chainGet 4 0 loc,
    followLoop_count_le chainGet 5 0 loc, fun c hc => ?_⟩
  simp [followRedirectsForCode, followLoop, hc]

/-- Witness for C5 at a concrete environment whose initial `Location`
already carries the code. -/
theorem claim_C5_redirect_walk_witness :
    followRedirectsForCode (fun _ => ⟨302, ""⟩) "https://x/cb?code=z" = (some "z", 0) :=
  (claim_C5_redirect_walk (fun _ => ⟨302, ""⟩) "https://x/cb?code=z").2.2 "z" (by decide)

/-! ## Auth Manager lemmas -/

theorem lpg_200 (env : AuthEnv) (now : Int) (st : Option TokenSet)
    (h : env.passwordGrant.status = 200) :
    loginPasswordGrant env now st =
      ⟨.ok (), some (storeTokens now env.passwordGrant.json),
        [.passwordGrantCall, .store]⟩ := by
  simp [loginPasswordGrant, h]

theorem lpg_fail (env : AuthEnv) (now : Int) (st : Option TokenSet)
    (h : env.passwordGrant.status ≠ 200) :
    loginPasswordGrant env now st =
      ⟨.error (.authenticationError
          ("Password grant failed (" ++ toString env.passwordGrant.status ++ "): "
            ++ env.passwordGrant.text)),
        st, [.passwordGrantCall]⟩ := by
  simp [loginPasswordGrant, h]

theorem login_pw200 (env : AuthEnv) (now : Int) (st : Option TokenSet)
    (h : env.passwordGrant.status = 200) :
    login env now st =
      ⟨.ok (), some (storeTokens now env.passwordGrant.json),
        [.loginCall, .passwordGrantCall, .store]⟩ := by
  simp [login, lpg_200 env now st h]

theorem login_pwfail (env : AuthEnv) (now : Int) (st : Option TokenSet)
    (h : env.passwordGrant.status ≠ 200) :
    login env now st =
      ⟨(loginPkceFlow env now st).result, (loginPkceFlow env now st).tokens,
        .loginCall :: .passwordGrantCall :: (loginPkceFlow env now st).trace⟩ := by
  simp [login, lpg_fail env now st h]

/-- Strategy B leaves the tokens untouched on error, or stores the
token-exchange body (its trace being `[pkceCall]` or
`[pkceCall, store]` respectively). -/
theorem pkce_cases (env : AuthEnv) (now : Int) (st : Option TokenSet) :
    ((∃ m, (loginPkceFlow env now st).result = .error (.authenticationError m)) ∧
      (loginPkceFlow env now st).tokens = st ∧
      (loginPkceFlow env now st).trace = [.pkceCall]) ∨
    ((loginPkceFlow env now st).result = .ok () ∧ env.tokenExchange.status = 200 ∧
      (loginPkceFlow env now st).tokens = some (storeTokens now env.tokenExchange.json) ∧
      (loginPkceFlow env now st).trace = [.pkceCall, .store]) := by
  unfold loginPkceFlow
  split
  · exact Or.inl ⟨⟨_, rfl⟩, rfl, rfl⟩
  · split
    · exact Or.inl ⟨⟨_, rfl⟩, rfl, rfl⟩
    · split
      · split
        · exact Or.inl ⟨⟨_, rfl⟩, rfl, rfl⟩
        · split
          · exact Or.inl ⟨⟨_, rfl⟩, rfl, rfl⟩
          · rename_i hte
            exact Or.inr ⟨rfl, by omega, rfl, rfl⟩
      · exact Or.inl ⟨⟨_, rfl⟩, rfl, rfl⟩

theorem login_cases (env : AuthEnv) (now : Int) (st : Option TokenSet) :
    ((login env now st).result = .ok () ∧
      (((login env now st).tokens = some (storeTokens now env.passwordGrant.json) ∧
          env.passwordGrant.status = 200) ∨
        ((login env now st).tokens = some (storeTokens now env.tokenExchange.json) ∧
          env.tokenExchange.status = 200))) ∨
    ((∃ m, (login env now st).result = .error (.authenticationError m)) ∧
      (login env now st).tokens = st) := by
  by_cases h : env.passwordGrant.status = 200
  · rw [login_pw200 env now st h]
    exact Or.inl ⟨rfl, Or.inl ⟨rfl, h⟩⟩
  · rw [login_pwfail env now st h]
    rcases pkce_cases env now st with ⟨⟨m, hm⟩, ht, _⟩ | ⟨hr, hte, ht, _⟩
    · exact Or.inr ⟨⟨m, hm⟩, ht⟩
    · exact Or.inl ⟨hr, Or.inr ⟨ht, hte⟩⟩

theorem login_trace_counts (env : AuthEnv) (now : Int) (st : Option TokenSet) :
    countE .loginCall (login env now st).trace = 1 ∧
    countE .passwordGrantCall (login env now st).trace = 1 ∧
    countE .refreshCall (login env now st).trace = 0 ∧
    countE .store (login env now st).trace ≤ 1 := by
  by_cases h : env.passwordGrant.status = 200
  · rw [login_pw200 env now st h]
    exact ⟨rfl, rfl, rfl, Nat.le.refl⟩
  · rw [login_pwfail env now st h]
    rcases pkce_cases env now st with ⟨_, _, ht⟩ | ⟨_, _, _, ht⟩ <;>
      simp [ht, countE]

theorem login_err_tokens (env : AuthEnv) (now : Int) (st : Option TokenSet)
    (e : AuthError) (h : (login env now st).result = .error e) :
    (login env now st).tokens = st := by
  rcases login_cases env now st with ⟨hok, _⟩ | ⟨_, ht⟩
  · rw [hok] at h; exact absurd h (by simp)
  · exact ht

theorem login_ok_fresh (env : AuthEnv) (now : Int) (st : Option TokenSet)
    (hf : envTokensFresh env now) (h : (login env now st).result = .ok ()) :
    ∃ ts2, (login env now st).tokens = some ts2 ∧ ts2.access_expired now = false := by
  rcases login_cases env now st with ⟨_, hsh⟩ | ⟨⟨m, hm⟩, _⟩
  · rcases hsh with ⟨ht, _⟩ | ⟨ht, _⟩
    · exact ⟨_, ht, hf.1⟩
    · exact ⟨_, ht, hf.2.1⟩
  · rw [hm] at h; exact absurd h (by simp)

theorem refresh_200 (env : AuthEnv) (now : Int) (ts : TokenSet)
    (h : env.refreshPost.status = 200) :
    refresh env now (some ts) =
      ⟨.ok (), some (storeTokens now env.refreshPost.json), [.refreshCall, .store]⟩ := by
  simp [refresh, h]

theorem refresh_fallback (env : AuthEnv) (now : Int) (ts : TokenSet)
    (h : env.refreshPost.status ≠ 200) :
    refresh env now (some ts) =
      ⟨(login env now (some ts)).result, (login env now (some ts)).tokens,
        .refreshCall :: (login env now (some ts)).trace⟩ := by
  simp [refresh, h]

theorem refresh_err_tokens (env : AuthEnv) (now : Int) (ts : TokenSet)
    (e : AuthError) (h : (refresh env now (some ts)).result = .error e) :
    (refresh env now (some ts)).tokens = some ts := by
  by_cases hs : env.refreshPost.status = 200
  · rw [refresh_200 env now ts hs] at h ⊢
    exact absurd h (by simp)
  · rw [refresh_fallback env now ts hs] at h ⊢
    exact login_err_tokens env now (some ts) e h

theorem refresh_ok_fresh (env : AuthEnv) (now : Int) (ts : TokenSet)
    (hf : envTokensFresh env now) (h : (refresh env now (some ts)).result = .ok ()) :
    ∃ ts2, (refresh env now (some ts)).tokens = some ts2 ∧
      ts2.access_expired now = false := by
  by_cases hs : env.refreshPost.status = 200
  · rw [refresh_200 env now ts hs]
    exact ⟨_, rfl, hf.2.2⟩
  · rw [refresh_fallback env now ts hs] at h ⊢
    exact login_ok_fresh env now (some ts) hf h

/-- The `access_token` property on a held, unexpired token set: no
network call, the held access token is returned. -/
theorem accessTokenRead_valid (env : AuthEnv) (now : Int) (ts : TokenSet)
    (h : ts.access_expired now = false) :
    accessTokenRead env now (some ts) = ⟨.ok ts.access_token, some ts, []⟩ := by
  simp [accessTokenRead, h]

theorem atrFinish_trace : ∀ o : AuthOut Unit, (atrFinish o).trace = o.trace := by
  rintro ⟨r, t, tr⟩
  cases r with
  | error e => rfl
  | ok u =>
    cases t with
    | none => rfl
    | some ts => rfl

theorem atrFinish_tokens : ∀ o : AuthOut Unit, (atrFinish o).tokens = o.tokens := by
  rintro ⟨r, t, tr⟩
  cases r with
  | error e => rfl
  | ok u =>
    cases t with
    | none => rfl
    | some ts => rfl

theorem atrFinish_ok_shape : ∀ (o : AuthOut Unit) (tok : String),
    (atrFinish o).result = .ok tok →
    ∃ ts2, (atrFinish o).tokens = some ts2 ∧ tok = ts2.access_token := by
  rintro ⟨r, t, tr⟩ tok h
  cases r with
  | error e => exact absurd h (by simp [atrFinish])
  | ok u =>
    cases t with
    | none => exact absurd h (by simp [atrFinish])
    | some ts =>
      simp only [atrFinish, Except.ok.injEq] at h
      exact ⟨ts, rfl, h.symm⟩

theorem atrFinish_result_ok_inv : ∀ (o : AuthOut Unit) (tok : String),
    (atrFinish o).result = .ok tok → o.result = .ok () := by
  rintro ⟨r, t, tr⟩ tok h
  cases r with
  | error e => exact absurd h (by simp [atrFinish])
  | ok u => rfl

/-- The `access_token` property on a held token set with expired
access dispatches to refresh (refresh window open) or login (refresh
window closed) and finishes by returning the token held afterwards. -/
theorem atr_expired_eq (env : AuthEnv) (now : Int) (ts : TokenSet)
    (h1 : ts.access_expired now = true) :
    accessTokenRead env now (some ts) =
      atrFinish (if ts.refresh_expired now then login env now (some ts)
        else refresh env now (some ts)) := by
  simp only [accessTokenRead, h1, if_true]
  rfl

theorem atr_expired_shape (env : AuthEnv) (now : Int) (ts : TokenSet)
    (h1 : ts.access_expired now = true) :
    (accessTokenRead env now (some ts)).trace =
      (if ts.refresh_expired now then login env now (some ts)
        else refresh env now (some ts)).trace ∧
    (accessTokenRead env now (some ts)).tokens =
      (if ts.refresh_expired now then login env now (some ts)
        else refresh env now (some ts)).tokens := by
  rw [atr_expired_eq env now ts h1]
  exact ⟨atrFinish_trace _, atrFinish_tokens _⟩

/-- The `access_token` property on a never-authenticated manager: the
trace is the login's trace, and on a fresh environment no second
dispatch happens. -/
theorem atr_unauth_counts (env : AuthEnv) (now : Int) (hf : envTokensFresh env now) :
    countE .loginCall (accessTokenRead env now none).trace = 1 ∧
    countE .refreshCall (accessTokenRead env now none).trace = 0 := by
  have hc := login_trace_counts env now none
  unfold accessTokenRead
  dsimp only
  cases hr : (login env now none).result with
  | error e => exact ⟨hc.1, hc.2.2.1⟩
  | ok u =>
    obtain ⟨ts2, ht2, hfr⟩ := login_ok_fresh env now none hf (by rw [hr])
    rw [ht2]
    dsimp only
    simp only [hfr, Bool.false_eq_true, if_false]
    exact ⟨hc.1, hc.2.2.1⟩

theorem refresh_trace_counts (env : AuthEnv) (now : Int) (ts : TokenSet) :
    countE .refreshCall (refresh env now (some ts)).trace = 1 ∧
    countE .loginCall (refresh env now (some ts)).trace ≤ 1 ∧
    (env.refreshPost.status = 200 →
      countE .loginCall (refresh env now (some ts)).trace = 0) := by
  by_cases hs : env.refreshPost.status = 200
  · rw [refresh_200 env now ts hs]
    exact ⟨rfl, Nat.zero_le 1, fun _ => rfl⟩
  · rw [refresh_fallback env now ts hs]
    have h4 := login_trace_counts env now (some ts)
    refine ⟨?_, ?_, fun h => absurd h hs⟩
    · show (if AuthEvent.refreshCall = AuthEvent.refreshCall then 1 else 0)
        + countE .refreshCall (login env now (some ts)).trace = 1
      rw [if_pos rfl, (login_trace_counts env now (some ts)).2.2.1]
    · show (if AuthEvent.refreshCall = AuthEvent.loginCall then 1 else 0)
        + countE .loginCall (login env now (some ts)).trace ≤ 1
      rw [if_neg (by simp), (login_trace_counts env now (some ts)).1]

theorem login_ok_tokens_some (env : AuthEnv) (now : Int) (st : Option TokenSet)
    (h : (login env now st).result = .ok ()) :
    ∃ ts2, (login env now st).tokens = some ts2 := by
  rcases login_cases env now st with ⟨_, hsh⟩ | ⟨⟨m, hm⟩, _⟩
  · rcases hsh with ⟨ht, _⟩ | ⟨ht, _⟩ <;> exact ⟨_, ht⟩
  · rw [hm] at h; exact absurd h (by simp)

/-- Every successful read of the `access_token` property returns the
access-token string of the token set held afterwards. -/
theorem atr_ok_shape (env : AuthEnv) (now : Int) (st : Option TokenSet) (tok : String)
    (h : (accessTokenRead env now st).result = .ok tok) :
    ∃ ts2, (accessTokenRead env now st).tokens = some ts2 ∧ tok = ts2.access_token := by
  cases st with
  | some ts =>
    by_cases he : ts.access_expired now
    · rw [atr_expired_eq env now ts he] at h ⊢
      exact atrFinish_ok_shape _ tok h
    · have hb : ts.access_expired now = false := by simpa using he
      rw [accessTokenRead_valid env now ts hb] at h ⊢
      simp only [Except.ok.injEq] at h
      exact ⟨ts, rfl, h.symm⟩
  | none =>
    unfold accessTokenRead at h ⊢
    dsimp only at h ⊢
    revert h
    cases hr : (login env now none).result with
    | error e =>
      intro h
      exact absurd h (by simp)
    | ok u =>
      intro h
      obtain ⟨ts2, ht2⟩ := login_ok_tokens_some env now none (by rw [hr])
      rw [ht2] at h ⊢
      dsimp only at h ⊢
      by_cases he : ts2.access_expired now
      · simp only [he, if_true] at h ⊢
        exact atrFinish_ok_shape _ tok h
      · have hb : ts2.access_expired now = false := by simpa using he
        simp only [hb, Bool.false_eq_true, if_false, Except.ok.injEq] at h ⊢
        exact ⟨ts2, rfl, h.symm⟩

/-- On a fresh environment a successful read never returns an
already-expired token. -/
theorem atr_ok_fresh (env : AuthEnv) (now : Int) (hf : envTokensFresh env now)
    (st : Option TokenSet) (tok : String)
    (h : (accessTokenRead env now st).result = .ok tok) :
    ∃ ts2, (accessTokenRead env now st).tokens = some ts2 ∧
      ts2.access_expired now = false := by
  have hdisp : ∀ ts : TokenSet,
      (if ts.refresh_expired now then login env now (some ts)
        else refresh env now (some ts)).result = .ok () →
      ∃ ts2, (if ts.refresh_expired now then login env now (some ts)
          else refresh env now (some ts)).tokens = some ts2 ∧
        ts2.access_expired now = false := by
    intro ts hok
    by_cases hb : ts.refresh_expired now
    · rw [if_pos hb] at hok ⊢
      exact login_ok_fresh env now (some ts) hf hok
    · rw [if_neg hb] at hok ⊢
      exact refresh_ok_fresh env now ts hf hok
  cases st with
  | some ts =>
    by_cases he : ts.access_expired now
    · rw [atr_expired_eq env now ts he] at h ⊢
      have hok := atrFinish_result_ok_inv _ _ h
      obtain ⟨ts2, hd, hfr⟩ := hdisp ts hok
      rw [atrFinish_tokens]
      exact ⟨ts2, hd, hfr⟩
    · have hb : ts.access_expired now = false := by simpa using he
      rw [accessTokenRead_valid env now ts hb]
      exact ⟨ts, rfl, hb⟩
  | none =>
    unfold accessTokenRead at h ⊢
    dsimp only at h ⊢
    revert h
    cases hr : (login env now none).result with
    | error e =>
      intro h
      exact absurd h (by simp)
    | ok u =>
      intro h
      obtain ⟨ts2, ht2, hfr⟩ := login_ok_fresh env now none hf (by rw [hr])
      rw [ht2] at h ⊢
      dsimp only at h ⊢
      simp only [hfr, Bool.false_eq_true, if_false] at h ⊢
      exact ⟨ts2, rfl, hfr⟩

/-! ## Claim C2: login strategy dispatch -/

/-- C2: strategy A is attempted exactly once per `login` and never
retried; on any non-200 password-grant response control falls through
to strategy B, whose outcome (tokens and result) becomes `login`'s
outcome, the strategy A failure never surfacing; and if strategy B then
finds no login form in a successfully fetched page, `login` raises
`AuthenticationError`. -/
theorem claim_C2_login_strategy_dispatch (env : AuthEnv) (now : Int) (st : Option TokenSet) :
    countE .passwordGrantCall (login env now st).trace = 1 ∧
    (env.passwordGrant.status ≠ 200 →
      (login env now st).result = (loginPkceFlow env now st).result ∧
      (login env now st).tokens = (loginPkceFlow env now st).tokens ∧
      countE .pkceCall (login env now st).trace = 1) ∧
    (env.passwordGrant.status ≠ 200 → env.loginPage.status = 200 →
      extractFormAction env.loginPage.text = none →
      (login env now st).result =
        .error (.authenticationError
          "Could not find login form action URL in Keycloak page")) := by
  refine ⟨(login_trace_counts env now st).2.1, fun h => ?_, fun h hp hf => ?_⟩
  · rw [login_pwfail env now st h]
    rcases pkce_cases env now st with ⟨_, _, ht⟩ | ⟨_, _, _, ht⟩ <;>
      simp [ht, countE]
  · rw [login_pwfail env now st h]
    show (loginPkceFlow env now st).result = _
    simp [loginPkceFlow, hp, hf]

/-- Witness for C2: password grant rejected with 400 and a form-less
login page; `login` fails with the form-not-found error. -/
theorem claim_C2_login_strategy_dispatch_witness :
    (login envNoForm 0 none).result =
      .error (.authenticationError
        "Could not find login form action URL in Keycloak page") :=
  (claim_C2_login_strategy_dispatch envNoForm 0 none).2.2
    (by decide) (by decide) (by decide)

/-! ## Claim C3: refresh fallback -/

/-- C3: a non-200 refresh response never surfaces an error directly —
the manager performs a full login and the caller receives that login's
outcome; a 200 response replaces the held `TokenSet` with one built
from the response body. -/
theorem claim_C3_refresh_fallback (env : AuthEnv) (now : Int) (ts : TokenSet) :
    (env.refreshPost.status ≠ 200 →
      (refresh env now (some ts)).result = (login env now (some ts)).result ∧
      (refresh env now (some ts)).tokens = (login env now (some ts)).tokens ∧
      countE .loginCall (refresh env now (some ts)).trace = 1) ∧
    (env.refreshPost.status = 200 →
      refresh env now (some ts) =
        ⟨.ok (), some (storeTokens now env.refreshPost.json),
          [.refreshCall, .store]⟩) := by
  refine ⟨fun h => ?_, fun h => refresh_200 env now ts h⟩
  rw [refresh_fallback env now ts h]
  refine ⟨rfl, rfl, ?_⟩
  have := (login_trace_counts env now (some ts)).1
  simp [countE] at this ⊢
  omega

/-- Witness for C3: refresh rejected with 400, fallback login succeeds
via the password grant. -/
theorem claim_C3_refresh_fallback_witness :
    (refresh envRefreshRevoked 0
        (some (TokenSet.make 0 "old" "oldr" "" "Bearer" 300 1800 ""))).result =
      (login envRefreshRevoked 0
        (some (TokenSet.make 0 "old" "oldr" "" "Bearer" 300 1800 ""))).result :=
  ((claim_C3_refresh_fallback envRefreshRevoked 0 _).1 (by decide)).1

/-! ## Claim C10: errors preserve the held token set -/

/-- C10: whenever login (either strategy) or refresh ends in an error,
the held token set is exactly what it was before the attempt; a
successful login replaced it wholesale with the body of the single
HTTP-200 token response of the succeeding strategy, and no run stores
more than once. -/
theorem claim_C10_error_preserves_tokens (env : AuthEnv) (now : Int) (st : Option TokenSet)
    (ts : TokenSet) :
    (∀ e, (loginPasswordGrant env now st).result = .error e →
      (loginPasswordGrant env now st).tokens = st) ∧
    (∀ e, (loginPkceFlow env now st).result = .error e →
      (loginPkceFlow env now st).tokens = st) ∧
    (∀ e, (login env now st).result = .error e → (login env now st).tokens = st) ∧
    (∀ e, (refresh env now (some ts)).result = .error e →
      (refresh env now (some ts)).tokens = some ts) ∧
    ((login env now st).result = .ok () →
      ((login env now st).tokens = some (storeTokens now env.passwordGrant.json) ∧
        env.passwordGrant.status = 200) ∨
      ((login env now st).tokens = some (storeTokens now env.tokenExchange.json) ∧
        env.tokenExchange.status = 200)) ∧
    countE .store (login env now st).trace ≤ 1 ∧
    countE .store (refresh env now (some ts)).trace ≤ 1 := by
  refine ⟨fun e h => ?_, fun e h => ?_, fun e h => login_err_tokens env now st e h,
    fun e h => refresh_err_tokens env now ts e h, fun h => ?_, ?_, ?_⟩
  · by_cases hs : env.passwordGrant.status = 200
    · rw [lpg_200 env now st hs] at h
      exact absurd h (by simp)
    · rw [lpg_fail env now st hs]
  · rcases pkce_cases env now st with ⟨_, ht, _⟩ | ⟨hr, _, _, _⟩
    · exact ht
    · rw [hr] at h; exact absurd h (by simp)
  · rcases login_cases env now st with ⟨_, hsh⟩ | ⟨⟨m, hm⟩, _⟩
    · exact hsh
    · rw [hm] at h; exact absurd h (by simp)
  · exact (login_trace_counts env now st).2.2.2
  · by_cases hs : env.refreshPost.status = 200
    · rw [refresh_200 env now ts hs]
      exact Nat.le.refl
    · rw [refresh_fallback env now ts hs]
      have := (login_trace_counts env now (some ts)).2.2.2
      simp [countE] at this ⊢
      omega

/-- Witness for C10: both strategies fail (password grant 400, form-less
page); the previously held token set survives unchanged. -/
theorem claim_C10_error_preserves_tokens_witness :
    (login envNoForm 0
        (some (TokenSet.make 0 "keep" "keepr" "" "Bearer" 300 1800 ""))).tokens =
      some (TokenSet.make 0 "keep" "keepr" "" "Bearer" 300 1800 "") :=
  (claim_C10_error_preserves_tokens envNoForm 0 _
      (TokenSet.make 0 "keep" "keepr" "" "Bearer" 300 1800 "")).2.2.1
    (.authenticationError "Could not find login form action URL in Keycloak page")
    rfl

/-! ## Matcher lemmas for claim C8

`noneAt F s` says the position scan of `F` fails at every suffix of
`s`; it drives both the `re.search` position loop and the greedy
`[^>]*` backtracking. -/

def noneAt {α : Type} (F : List Char → Option α) (s : List Char) : Prop :=
  ∀ n, F (s.drop n) = none

theorem noneAt_nil {α : Type} (F : List Char → Option α) (h : F [] = none) :
    noneAt F [] := by
  intro n
  simpa using h

theorem noneAt_cons {α : Type} (F : List Char → Option α) (c : Char) (cs : List Char)
    (h0 : F (c :: cs) = none) (h1 : noneAt F cs) : noneAt F (c :: cs) := by
  intro n
  cases n with
  | zero => simpa using h0
  | succ m => simpa using h1 m

theorem noneAt_append {α : Type} (F : List Char → Option α) (u v : List Char)
    (hu : ∀ c ∈ u, ∀ t : List Char, F (c :: t) = none) (hv : noneAt F v) :
    noneAt F (u ++ v) := by
  induction u with
  | nil => simpa using hv
  | cons c cs ih =>
    rw [List.cons_append]
    refine noneAt_cons F c (cs ++ v) (hu c (by simp) _) ?_
    exact ih (fun d hd t => hu d (by simp [hd]) t)

theorem matchCI_cons_ne (p : Char) (ps : List Char) (c : Char) (cs : List Char)
    (h : c.toLower ≠ p) : matchCI (p :: ps) (c :: cs) = none := by
  simp [matchCI, h]

theorem noneAt_bind_nil {p : Char} {ps : List Char}
    (cont : List Char → Option (List Char)) :
    noneAt (fun s => (matchCI (p :: ps) s).bind cont) [] :=
  noneAt_nil _ rfl

theorem noneAt_bind_append {p : Char} {ps : List Char}
    (cont : List Char → Option (List Char)) (u v : List Char)
    (hu : ∀ c ∈ u, c.toLower ≠ p)
    (hv : noneAt (fun s => (matchCI (p :: ps) s).bind cont) v) :
    noneAt (fun s => (matchCI (p :: ps) s).bind cont) (u ++ v) := by
  refine noneAt_append _ u v (fun c hc t => ?_) hv
  rw [matchCI_cons_ne p ps c t (hu c hc)]
  rfl

theorem pick_some {α : Type} (a : α) (b : Option α) : pick (some a) b = some a := rfl

theorem pick_none_left {α : Type} (b : Option α) : pick none b = b := rfl

theorem pick_none_right {α : Type} (a : Option α) : pick a none = a := by
  cases a <;> rfl

theorem gapThen_cons (tok : List Char) (cont : List Char → Option (List Char))
    (prev c : Char) (cs : List Char) :
    gapThen tok cont prev (c :: cs) =
      pick (if c = '>' then none else gapThen tok cont c cs)
        (if isWordChar prev then none else (matchCI tok (c :: cs)).bind cont) := rfl

/-- The greedy gap scan fails outright when the literal-plus-rest
fails at every position. -/
theorem gapThen_none (tok : List Char) (cont : List Char → Option (List Char)) :
    ∀ (s : List Char) (prev : Char),
      noneAt (fun t => (matchCI tok t).bind cont) s →
      gapThen tok cont prev s = none := by
  intro s
  induction s with
  | nil => intro prev h; rfl
  | cons c cs ih =>
    intro prev h
    have h0 : (matchCI tok (c :: cs)).bind cont = none := by simpa using h 0
    have hrest : noneAt (fun t => (matchCI tok t).bind cont) cs := fun n => by
      simpa using h (n + 1)
    rw [gapThen_cons]
    have hfst : (if c = '>' then none else gapThen tok cont c cs)
        = (none : Option (List Char)) := by
      split
      · rfl
      · exact ih c hrest
    have hsnd : (if isWordChar prev then none else (matchCI tok (c :: cs)).bind cont)
        = (none : Option (List Char)) := by
      split
      · rfl
      · exact h0
    rw [hfst, hsnd]
    rfl

/-- Skipping one consumable character whose own position cannot match:
the greedy scan's result is that of the rest. -/
theorem gapThen_cons_skip (tok : List Char) (cont : List Char → Option (List Char))
    (prev c : Char) (cs : List Char) (hc : c ≠ '>')
    (hh : isWordChar prev = true ∨ (matchCI tok (c :: cs)).bind cont = none) :
    gapThen tok cont prev (c :: cs) = gapThen tok cont c cs := by
  rw [gapThen_cons, if_neg hc]
  have hsnd : (if isWordChar prev then none else (matchCI tok (c :: cs)).bind cont)
      = (none : Option (List Char)) := by
    rcases hh with h | h
    · rw [if_pos h]
    · split
      · rfl
      · exact h
  rw [hsnd, pick_none_right]

/-- When every deeper position fails and the word boundary holds, the
scan fires at the current position. -/
theorem gapThen_cons_fire (tok : List Char) (cont : List Char → Option (List Char))
    (prev c : Char) (cs : List Char)
    (hd : c = '>' ∨ gapThen tok cont c cs = none) (hw : isWordChar prev = false) :
    gapThen tok cont prev (c :: cs) = (matchCI tok (c :: cs)).bind cont := by
  rw [gapThen_cons]
  have hfst : (if c = '>' then none else gapThen tok cont c cs)
      = (none : Option (List Char)) := by
    rcases hd with h | h
    · rw [if_pos h]
    · split
      · rfl
      · exact h
  rw [hfst, pick_none_left, if_neg (by simp [hw])]

theorem searchPat_none (patAt : List Char → Option (List Char)) :
    ∀ s, noneAt patAt s → searchPat patAt s = none := by
  intro s
  induction s with
  | nil => intro h; simpa using h 0
  | cons c cs ih =>
    intro h
    have h0 : patAt (c :: cs) = none := by simpa using h 0
    have hrest : noneAt patAt cs := fun n => by simpa using h (n + 1)
    rw [show searchPat patAt (c :: cs) = pick (patAt (c :: cs)) (searchPat patAt cs)
      from rfl, h0, pick_none_left, ih hrest]

theorem takeWhile_append_all (p : Char → Bool) :
    ∀ (u v : List Char), (∀ c ∈ u, p c = true) →
      (u ++ v).takeWhile p = u ++ v.takeWhile p := by
  intro u
  induction u with
  | nil => intro v _; rfl
  | cons c cs ih =>
    intro v hu
    rw [List.cons_append, List.takeWhile_cons, if_pos (hu c (by simp)),
      ih v (fun d hd => hu d (by simp [hd])), List.cons_append]

theorem dropWhile_append_all (p : Char → Bool) :
    ∀ (u v : List Char), (∀ c ∈ u, p c = true) →
      (u ++ v).dropWhile p = v.dropWhile p := by
  intro u
  induction u with
  | nil => intro v _; rfl
  | cons c cs ih =>
    intro v hu
    rw [List.cons_append, List.dropWhile_cons, if_pos (hu c (by simp))]
    exact ih v (fun d hd => hu d (by simp [hd]))

/-- The capture `([^"...]+)["...]` on a quote-free nonempty value
followed by a quote. -/
theorem captureGroup_eq (a : List Char) (q : Char) (rest : List Char)
    (ha : ∀ c ∈ a, isQuoteChar c = false) (hane : a ≠ []) (hq : isQuoteChar q = true) :
    captureGroup (a ++ q :: rest) = some (a, q, rest) := by
  have hall : ∀ c ∈ a, (fun c => !isQuoteChar c) c = true := fun c hc => by
    simp [ha c hc]
  have hd : (a ++ q :: rest).dropWhile (fun c => !isQuoteChar c) = q :: rest := by
    rw [dropWhile_append_all _ a _ hall, List.dropWhile_cons, if_neg (by simp [hq])]
  have ht : (a ++ q :: rest).takeWhile (fun c => !isQuoteChar c) = a := by
    rw [takeWhile_append_all _ a _ hall, List.takeWhile_cons, if_neg (by simp [hq]),
      List.append_nil]
  have hae : a.isEmpty = false := by
    cases a with
    | nil => exact absurd rfl hane
    | cons x xs => rfl
  unfold captureGroup
  rw [hd]
  simp only [ht, hae]
  rfl

theorem matchP1At_cons_ne (c : Char) (cs : List Char) (h : c.toLower ≠ '<') :
    matchP1At (c :: cs) = none := by
  unfold matchP1At
  rw [show "<form".toList = '<' :: "form".toList from rfl,
    matchCI_cons_ne '<' "form".toList c cs h]

theorem matchP2At_cons_ne (c : Char) (cs : List Char) (h : c.toLower ≠ '<') :
    matchP2At (c :: cs) = none := by
  unfold matchP2At
  rw [show "<form".toList = '<' :: "form".toList from rfl,
    matchCI_cons_ne '<' "form".toList c cs h]

theorem noneAt_p1_nil : noneAt matchP1At [] := noneAt_nil _ rfl

theorem noneAt_p1_append (u v : List Char) (hu : ∀ c ∈ u, c.toLower ≠ '<')
    (hv : noneAt matchP1At v) : noneAt matchP1At (u ++ v) :=
  noneAt_append _ u v (fun c hc t => matchP1At_cons_ne c t (hu c hc)) hv

theorem noneAt_p1_all (u : List Char) (hu : ∀ c ∈ u, c.toLower ≠ '<') :
    noneAt matchP1At u := by
  have := noneAt_p1_append u [] hu noneAt_p1_nil
  simpa using this

theorem noneAt_bind_all {p : Char} {ps : List Char}
    (cont : List Char → Option (List Char)) (u : List Char)
    (hu : ∀ c ∈ u, c.toLower ≠ p) :
    noneAt (fun s => (matchCI (p :: ps) s).bind cont) u := by
  have := @noneAt_bind_append p ps cont u [] hu (@noneAt_bind_nil p ps cont)
  simpa using this

theorem isSome_false_eq_none {α : Type} {o : Option α} (h : o.isSome = false) :
    o = none := by
  cases o with
  | none => rfl
  | some a => simp at h

/-- A literal at least as long as its input window fails on the
extension too: the match only inspects the window. -/
theorem matchCI_append_long (p : List Char) :
    ∀ (u v : List Char), p.length ≤ u.length → matchCI p u = none →
      matchCI p (u ++ v) = none := by
  induction p with
  | nil => intro u v _ hu; simp [matchCI] at hu
  | cons p0 ps ih =>
    intro u v hlen hu
    cases u with
    | nil => simp at hlen
    | cons c cs =>
      rw [List.cons_append]
      by_cases hc : c.toLower = p0
      · rw [show matchCI (p0 :: ps) (c :: (cs ++ v))
            = if c.toLower = p0 then matchCI ps (cs ++ v) else none from rfl,
          if_pos hc]
        rw [show matchCI (p0 :: ps) (c :: cs)
            = if c.toLower = p0 then matchCI ps cs else none from rfl,
          if_pos hc] at hu
        exact ih cs v (by simp only [List.length_cons] at hlen; omega) hu
      · exact matchCI_cons_ne p0 ps c _ hc

/-- A quote-free literal longer than the window before a quote must run
into the quote and fail. -/
theorem matchCI_hits_quote :
    ∀ (u : List Char) (p : List Char) (w : List Char), u.length < p.length →
      (∀ c ∈ p, c ≠ '"') → matchCI p (u ++ '"' :: w) = none := by
  intro u
  induction u with
  | nil =>
    intro p w hlen hp
    cases p with
    | nil => simp at hlen
    | cons p0 ps =>
      have h0 : p0 ≠ '"' := hp p0 (by simp)
      have hne : ('"' : Char).toLower ≠ p0 := by
        intro h
        exact h0 (by rw [← h]; decide)
      rw [List.nil_append]
      exact matchCI_cons_ne p0 ps '"' w hne
  | cons c cs ih =>
    intro p w hlen hp
    cases p with
    | nil => simp at hlen
    | cons p0 ps =>
      rw [List.cons_append]
      by_cases hc : c.toLower = p0
      · rw [show matchCI (p0 :: ps) (c :: (cs ++ '"' :: w))
            = if c.toLower = p0 then matchCI ps (cs ++ '"' :: w) else none from rfl,
          if_pos hc]
        exact ih ps w (by simp only [List.length_cons] at hlen; omega)
          (fun d hd => hp d (by simp [hd]))
      · exact matchCI_cons_ne p0 ps c _ hc

/-- A list reporting no case-insensitive occurrence of the literal has
the literal failing at every suffix. -/
theorem hasTokCI_false (tok : List Char) :
    ∀ (a : List Char), hasTokCI tok a = false →
      ∀ n, matchCI tok (a.drop n) = none := by
  intro a
  induction a with
  | nil =>
    intro h n
    rw [List.drop_nil]
    rw [show hasTokCI tok [] = (matchCI tok []).isSome from rfl] at h
    exact isSome_false_eq_none h
  | cons c cs ih =>
    intro h n
    rw [show hasTokCI tok (c :: cs)
        = ((matchCI tok (c :: cs)).isSome || hasTokCI tok cs) from rfl] at h
    have h2 := Bool.or_eq_false_iff.mp h
    cases n with
    | zero => exact isSome_false_eq_none h2.1
    | succ m =>
      rw [show (c :: cs).drop (m + 1) = cs.drop m from rfl]
      exact ih h2.2 m

/-- The literal-plus-continuation scan fails everywhere over a
quote-delimited value region: the value reports no occurrence of the
(quote-free) literal, a window at least as long as the literal fails by
`matchCI_append_long`, a shorter one runs into the closing quote, and
positions past the value fall to the tail hypothesis. -/
theorem noneAt_bind_value {p : Char} {ps : List Char}
    (cont : List Char → Option (List Char)) (a w : List Char)
    (ha : hasTokCI (p :: ps) a = false)
    (hq : ∀ c ∈ p :: ps, c ≠ '"')
    (hv : noneAt (fun s => (matchCI (p :: ps) s).bind cont) ('"' :: w)) :
    noneAt (fun s => (matchCI (p :: ps) s).bind cont) (a ++ '"' :: w) := by
  intro n
  dsimp only
  by_cases hn : n ≤ a.length
  · rw [List.drop_append_of_le_length hn]
    by_cases hl : (p :: ps).length ≤ (a.drop n).length
    · rw [matchCI_append_long (p :: ps) (a.drop n) ('"' :: w) hl
        (hasTokCI_false (p :: ps) a ha n)]
      rfl
    · rw [matchCI_hits_quote (a.drop n) (p :: ps) w (Nat.lt_of_not_le hl) hq]
      rfl
  · have hlen : a.length ≤ n := Nat.le_of_not_le hn
    rw [List.drop_append_eq_append_drop, List.drop_eq_nil_of_le hlen,
      List.nil_append]
    exact hv (n - a.length)

theorem searchPat_cons (patAt : List Char → Option (List Char)) (c : Char)
    (cs : List Char) :
    searchPat patAt (c :: cs) = pick (patAt (c :: cs)) (searchPat patAt cs) := rfl

/-- Pattern 1's continuation at a well-formed quoted action value. -/
theorem actionCont_eq (q : Char) (hq : isQuoteChar q = true) (a : List Char)
    (haq : ∀ c ∈ a, isQuoteChar c = false) (hane : a ≠ []) (q2 : Char)
    (hq2 : isQuoteChar q2 = true) (rest : List Char) :
    actionCont (q :: (a ++ q2 :: rest)) = methodTail a q2 rest := by
  unfold actionCont
  dsimp only
  rw [if_pos hq, captureGroup_eq a q2 rest haq hane hq2]

/-- Pattern 2's continuation at a well-formed quoted action value. -/
theorem action2Cont_eq (q : Char) (hq : isQuoteChar q = true) (a : List Char)
    (haq : ∀ c ∈ a, isQuoteChar c = false) (hane : a ≠ []) (q2 : Char)
    (hq2 : isQuoteChar q2 = true) (rest : List Char) :
    action2Cont (q :: (a ++ q2 :: rest)) = some a := by
  unfold action2Cont
  dsimp only
  rw [if_pos hq, captureGroup_eq a q2 rest haq hane hq2]

/-- The greedy scan for `method=` over the concrete remainder
`" method=\"post\">"`, for an arbitrary continuation. -/
theorem gapThen_method_concrete (cont : List Char → Option (List Char)) :
    gapThen "method=".toList cont '"' " method=\"post\">".toList =
      cont "\"post\">".toList := by
  have hdeepM : gapThen "method=".toList cont 'm' "ethod=\"post\">".toList = none := by
    refine gapThen_none _ _ _ _ ?_
    exact noneAt_bind_all _ "ethod=\"post\">".toList (by decide)
  rw [show (" method=\"post\">".toList : List Char)
      = ' ' :: "method=\"post\">".toList from rfl]
  rw [gapThen_cons_skip "method=".toList cont '"' ' ' "method=\"post\">".toList
    (by decide) (Or.inr rfl)]
  rw [show ("method=\"post\">".toList : List Char)
      = 'm' :: "ethod=\"post\">".toList from rfl]
  rw [gapThen_cons_fire "method=".toList cont ' ' 'm' "ethod=\"post\">".toList
    (Or.inr hdeepM) (by decide)]
  rfl

/-- The method tail `[^>]*\bmethod=["...]post["...]` evaluated on the
concrete remainder of the canonical order-1 document. -/
theorem methodTail_concrete (cap : List Char) :
    methodTail cap '"' " method=\"post\">".toList = some cap := by
  unfold methodTail
  rw [gapThen_method_concrete]
  rfl

/-- The method tail hits the closing `>` at once in the order-2
document and fails. -/
theorem methodTail_gt (cap : List Char) : methodTail cap '"' ['>'] = none := rfl

/-- The greedy scan for `action=` fires at the quoted action literal
when every deeper position fails. -/
theorem gapThen_action_fire (cont : List Char → Option (List Char)) (prev : Char)
    (a suf : List Char)
    (hdeep : gapThen "action=".toList cont 'a'
      ("ction=\"".toList ++ (a ++ suf)) = none) :
    gapThen "action=".toList cont prev (" action=\"".toList ++ (a ++ suf)) =
      cont ('"' :: (a ++ suf)) := by
  rw [show (" action=\"".toList ++ (a ++ suf) : List Char)
      = ' ' :: ("action=\"".toList ++ (a ++ suf)) from rfl]
  rw [gapThen_cons_skip "action=".toList cont prev ' '
    ("action=\"".toList ++ (a ++ suf)) (by decide) (Or.inr rfl)]
  rw [show ("action=\"".toList ++ (a ++ suf) : List Char)
      = 'a' :: ("ction=\"".toList ++ (a ++ suf)) from rfl]
  rw [gapThen_cons_fire "action=".toList cont ' ' 'a'
    ("ction=\"".toList ++ (a ++ suf)) (Or.inr hdeep) (by decide)]
  rw [show matchCI "action=".toList ('a' :: ("ction=\"".toList ++ (a ++ suf)))
      = some ('"' :: (a ++ suf)) from rfl]
  rfl

/-- The greedy scan for `method=` fires right after the space when
every deeper position fails. -/
theorem gapThen_method_fire (cont : List Char → Option (List Char)) (rest : List Char)
    (hdeep : gapThen "method=".toList cont 'm' ("ethod=".toList ++ rest) = none) :
    gapThen "method=".toList cont 'm' (" method=".toList ++ rest) = cont rest := by
  rw [show (" method=".toList ++ rest : List Char)
      = ' ' :: ("method=".toList ++ rest) from rfl]
  rw [gapThen_cons_skip "method=".toList cont 'm' ' ' ("method=".toList ++ rest)
    (by decide) (Or.inl (by decide))]
  rw [show ("method=".toList ++ rest : List Char)
      = 'm' :: ("ethod=".toList ++ rest) from rfl]
  rw [gapThen_cons_fire "method=".toList cont ' ' 'm' ("ethod=".toList ++ rest)
    (Or.inr hdeep) (by decide)]
  rw [show matchCI "method=".toList ('m' :: ("ethod=".toList ++ rest)) = some rest
    from rfl]
  rfl

/-- Pattern 1 matches the canonical order-1 document
`<form action="A" method="post">` at position 0, capturing the action
value. -/
theorem matchP1_h1 (a : List Char) (hg : goodActionValue a) :
    matchP1At ("<form action=\"".toList
      ++ (a ++ "\" method=\"post\">".toList)) = some a := by
  have hane := hg.1
  have haq : ∀ c ∈ a, isQuoteChar c = false := fun c hc => by
    have h := hg.2.2.2.2 c hc
    simp [isQuoteChar, h.2.1, h.2.2]
  have hdeep : gapThen "action=".toList actionCont 'a'
      ("ction=\"".toList ++ (a ++ "\" method=\"post\">".toList)) = none := by
    refine gapThen_none _ _ _ _ ?_
    refine noneAt_bind_append actionCont "ction=\"".toList _ (by decide) ?_
    rw [show (a ++ "\" method=\"post\">".toList : List Char)
        = a ++ ('"' :: " method=\"post\">".toList) from rfl]
    refine noneAt_bind_value actionCont a _ hg.2.1 (by decide) ?_
    exact noneAt_bind_all actionCont ('"' :: " method=\"post\">".toList) (by decide)
  unfold matchP1At
  rw [show matchCI "<form".toList
      ("<form action=\"".toList ++ (a ++ "\" method=\"post\">".toList))
      = some (" action=\"".toList ++ (a ++ "\" method=\"post\">".toList)) from rfl]
  dsimp only
  rw [gapThen_action_fire actionCont 'm' a "\" method=\"post\">".toList hdeep]
  rw [show (a ++ "\" method=\"post\">".toList : List Char)
      = a ++ ('"' :: " method=\"post\">".toList) from rfl]
  rw [actionCont_eq '"' (by decide) a haq hane '"' (by decide) _]
  exact methodTail_concrete a

/-- Pattern 1 finds nothing anywhere in the canonical order-2 document
`<form method="post" action="A">`: at position 0 its method tail runs
into the closing `>`, and no later position can start a match. -/
theorem searchP1_h2_none (a : List Char) (hg : goodActionValue a) :
    searchPat matchP1At ("<form method=\"post\" action=\"".toList
      ++ (a ++ "\">".toList)) = none := by
  have hane := hg.1
  have haq : ∀ c ∈ a, isQuoteChar c = false := fun c hc => by
    have h := hg.2.2.2.2 c hc
    simp [isQuoteChar, h.2.1, h.2.2]
  have hp0 : matchP1At ("<form method=\"post\" action=\"".toList
      ++ (a ++ "\">".toList)) = none := by
    unfold matchP1At
    rw [show matchCI "<form".toList
        ("<form method=\"post\" action=\"".toList ++ (a ++ "\">".toList))
        = some (" method=\"post\" action=\"".toList ++ (a ++ "\">".toList)) from rfl]
    dsimp only
    refine gapThen_none _ _ _ _ ?_
    rw [show (" method=\"post\" action=\"".toList ++ (a ++ "\">".toList) : List Char)
        = " method=\"post\" ".toList
          ++ ('a' :: ("ction=\"".toList ++ (a ++ "\">".toList))) from rfl]
    refine noneAt_bind_append actionCont " method=\"post\" ".toList _ (by decide) ?_
    refine noneAt_cons _ _ _ ?_ ?_
    · rw [show matchCI ['a', 'c', 't', 'i', 'o', 'n', '=']
          ('a' :: ("ction=\"".toList ++ (a ++ "\">".toList)))
          = some ('"' :: (a ++ "\">".toList)) from rfl]
      show actionCont ('"' :: (a ++ "\">".toList)) = none
      rw [show (a ++ "\">".toList : List Char) = a ++ ('"' :: ['>']) from rfl]
      rw [actionCont_eq '"' (by decide) a haq hane '"' (by decide) ['>']]
      exact methodTail_gt a
    · refine noneAt_bind_append actionCont "ction=\"".toList _ (by decide) ?_
      rw [show (a ++ "\">".toList : List Char) = a ++ ('"' :: ['>']) from rfl]
      refine noneAt_bind_value actionCont a _ hg.2.1 (by decide) ?_
      exact noneAt_bind_all actionCont ('"' :: ['>']) (by decide)
  refine searchPat_none _ _ ?_
  rw [show ("<form method=\"post\" action=\"".toList ++ (a ++ "\">".toList) : List Char)
      = '<' :: ("form method=\"post\" action=\"".toList ++ (a ++ "\">".toList)) from rfl]
  refine noneAt_cons _ _ _ ?_ ?_
  · rw [show ('<' :: ("form method=\"post\" action=\"".toList ++ (a ++ "\">".toList))
        : List Char)
        = "<form method=\"post\" action=\"".toList ++ (a ++ "\">".toList) from rfl]
    exact hp0
  · refine noneAt_p1_append "form method=\"post\" action=\"".toList _ (by decide) ?_
    refine noneAt_p1_append a _ (fun c hc => (hg.2.2.2.2 c hc).1) ?_
    exact noneAt_p1_all "\">".toList (by decide)

/-- Pattern 2 matches the canonical order-2 document at position 0,
capturing the action value. -/
theorem matchP2_h2 (a : List Char) (hg : goodActionValue a) :
    matchP2At ("<form method=\"post\" action=\"".toList
      ++ (a ++ "\">".toList)) = some a := by
  have hane := hg.1
  have haq : ∀ c ∈ a, isQuoteChar c = false := fun c hc => by
    have h := hg.2.2.2.2 c hc
    simp [isQuoteChar, h.2.1, h.2.2]
  have hdeepA2 : gapThen "action=".toList action2Cont 'a'
      ("ction=\"".toList ++ (a ++ "\">".toList)) = none := by
    refine gapThen_none _ _ _ _ ?_
    refine noneAt_bind_append action2Cont "ction=\"".toList _ (by decide) ?_
    rw [show (a ++ "\">".toList : List Char) = a ++ ('"' :: ['>']) from rfl]
    refine noneAt_bind_value action2Cont a _ hg.2.1 (by decide) ?_
    exact noneAt_bind_all action2Cont ('"' :: ['>']) (by decide)
  have hm2 : method2Cont ("\"post\" action=\"".toList ++ (a ++ "\">".toList))
      = some a := by
    rw [show ("\"post\" action=\"".toList ++ (a ++ "\">".toList) : List Char)
        = '"' :: ("post\" action=\"".toList ++ (a ++ "\">".toList)) from rfl]
    unfold method2Cont
    dsimp only
    rw [if_pos (by decide)]
    rw [show matchCI "post".toList
        ("post\" action=\"".toList ++ (a ++ "\">".toList))
        = some ('"' :: (" action=\"".toList ++ (a ++ "\">".toList))) from rfl]
    dsimp only
    rw [if_pos (by decide)]
    rw [gapThen_action_fire action2Cont '"' a "\">".toList hdeepA2]
    rw [show (a ++ "\">".toList : List Char) = a ++ ('"' :: ['>']) from rfl]
    exact action2Cont_eq '"' (by decide) a haq hane '"' (by decide) ['>']
  have hdeepM2 : gapThen "method=".toList method2Cont 'm'
      ("ethod=".toList ++ ("\"post\" action=\"".toList ++ (a ++ "\">".toList)))
      = none := by
    refine gapThen_none _ _ _ _ ?_
    refine noneAt_bind_append method2Cont "ethod=".toList _ (by decide) ?_
    refine noneAt_bind_append method2Cont "\"post\" action=\"".toList _ (by decide) ?_
    rw [show (a ++ "\">".toList : List Char) = a ++ ('"' :: ['>']) from rfl]
    refine noneAt_bind_value method2Cont a _ hg.2.2.1 (by decide) ?_
    exact noneAt_bind_all method2Cont ('"' :: ['>']) (by decide)
  unfold matchP2At
  rw [show matchCI "<form".toList
      ("<form method=\"post\" action=\"".toList ++ (a ++ "\">".toList))
      = some (" method=\"post\" action=\"".toList ++ (a ++ "\">".toList)) from rfl]
  dsimp only
  rw [show (" method=\"post\" action=\"".toList ++ (a ++ "\">".toList) : List Char)
      = " method=".toList
        ++ ("\"post\" action=\"".toList ++ (a ++ "\">".toList)) from rfl]
  rw [gapThen_method_fire method2Cont _ hdeepM2]
  exact hm2

/-- C8 counterexample: `<form method=post action=/a>` is a valid HTML
form element whose method attribute is POST and whose action is `/a`,
written with unquoted attribute values as HTML allows; the claim says
`extract_form_action` returns that action, but the regexes require
quoted values, so it returns not-found. -/
theorem claim_C8_counterexample :
    extractFormAction "<form method=post action=/a>" = none := by
  decide

set_option maxRecDepth 100000 in
/-- C8 (amended): in the canonical quoted-attribute single-form
documents `<form action="A" method="post">` and
`<form method="post" action="A">`, for every action value A that is
nonempty, free of quotes and of `<`, contains no case-insensitive
occurrence of `action=` or `method=`, and whose ampersands all
introduce `&amp;`, `extract_form_action` returns A
HTML-entity-decoded, in either attribute order; concrete instances
show case-insensitive matching with single quotes, named (`&amp;`)
and numeric (`&#47;`) entity decoding, a realistic multi-attribute
form, and not-found on a document with no matching form — including
one whose POST form uses unquoted attribute values. -/
theorem claim_C8_form_action :
    (∀ a : List Char, goodActionValue a →
      extractFormAction
          ⟨"<form action=\"".toList ++ (a ++ "\" method=\"post\">".toList)⟩
        = some ⟨htmlUnescape a⟩) ∧
    (∀ a : List Char, goodActionValue a →
      extractFormAction
          ⟨"<form method=\"post\" action=\"".toList ++ (a ++ "\">".toList)⟩
        = some ⟨htmlUnescape a⟩) ∧
    extractFormAction "<FORM METHOD='POST' ACTION='/L'>" = some "/L" ∧
    extractFormAction "<form action=\"/a?b=1&amp;c=2\" method=\"post\">"
      = some "/a?b=1&c=2" ∧
    extractFormAction "<form action=\"/p&#47;q\" method=\"post\">" = some "/p/q" ∧
    extractFormAction
        "<form id=\"kc-form-login\" onsubmit=\"login.disabled = true; return true;\" action=\"https://auth/x?a=1&amp;b=2\" method=\"post\">"
      = some "https://auth/x?a=1&b=2" ∧
    extractFormAction "<form method=post action=/a>" = none ∧
    extractFormAction "<html><body>no form here</body></html>" = none := by
  refine ⟨fun a hg => ?_, fun a hg => ?_, by decide, by decide, by decide, by decide,
    by decide, by decide⟩
  · have hp1 : searchPat matchP1At
        ("<form action=\"".toList ++ (a ++ "\" method=\"post\">".toList)) = some a := by
      calc searchPat matchP1At
            ("<form action=\"".toList ++ (a ++ "\" method=\"post\">".toList))
          = pick (matchP1At
              ("<form action=\"".toList ++ (a ++ "\" method=\"post\">".toList)))
            (searchPat matchP1At
              ("form action=\"".toList ++ (a ++ "\" method=\"post\">".toList))) := rfl
        _ = some a := by rw [matchP1_h1 a hg, pick_some]
    unfold extractFormAction
    dsimp only
    rw [hp1]
    rfl
  · have hp2 : searchPat matchP2At
        ("<form method=\"post\" action=\"".toList ++ (a ++ "\">".toList)) = some a := by
      calc searchPat matchP2At
            ("<form method=\"post\" action=\"".toList ++ (a ++ "\">".toList))
          = pick (matchP2At
              ("<form method=\"post\" action=\"".toList ++ (a ++ "\">".toList)))
            (searchPat matchP2At
              ("form method=\"post\" action=\"".toList ++ (a ++ "\">".toList))) := rfl
        _ = some a := by rw [matchP2_h2 a hg, pick_some]
    unfold extractFormAction
    dsimp only
    rw [searchP1_h2_none a hg, pick_none_left, hp2]

/-- Witness for C8 at a realistic Keycloak action value, in both
attribute orders, together with its evaluated decode (`&amp;` → `&`). -/
theorem claim_C8_form_action_witness :
    extractFormAction
        ⟨"<form action=\"".toList
          ++ ("/login-actions/authenticate?session_code=G2&amp;execution=e1".toList
            ++ "\" method=\"post\">".toList)⟩
      = some ⟨htmlUnescape
          "/login-actions/authenticate?session_code=G2&amp;execution=e1".toList⟩ ∧
    extractFormAction
        ⟨"<form method=\"post\" action=\"".toList
          ++ ("/login-actions/authenticate?session_code=G2&amp;execution=e1".toList
            ++ "\">".toList)⟩
      = some ⟨htmlUnescape
          "/login-actions/authenticate?session_code=G2&amp;execution=e1".toList⟩ ∧
    (⟨htmlUnescape
        "/login-actions/authenticate?session_code=G2&amp;execution=e1".toList⟩
      : String) = "/login-actions/authenticate?session_code=G2&execution=e1" :=
  ⟨claim_C8_form_action.1
      "/login-actions/authenticate?session_code=G2&amp;execution=e1".toList
      (by refine ⟨?_, ?_, ?_, ?_, ?_⟩ <;> decide),
    claim_C8_form_action.2.1
      "/login-actions/authenticate?session_code=G2&amp;execution=e1".toList
      (by refine ⟨?_, ?_, ?_, ?_, ?_⟩ <;> decide),
    by decide⟩

/-! ## Claim C1: the `access_token` state machine -/

/-- C1: reading `access_token` dispatches exactly as the state machine
prescribes — no token set: one full login and no refresh; token held
and valid: no call, the held access token returned; access expired with
refresh window open: exactly one refresh (a login occurring only inside
the refresh's own fallback, and not at all when the refresh endpoint
answers 200); both expired: exactly one full login and no refresh — and
every successful read returns the access-token string of the token set
held afterwards, which on a fresh environment is never access-expired
at return time. -/
theorem claim_C1_access_token_state_machine (env : AuthEnv) (now : Int) :
    (envTokensFresh env now →
      countE .loginCall (accessTokenRead env now none).trace = 1 ∧
      countE .refreshCall (accessTokenRead env now none).trace = 0) ∧
    (∀ ts : TokenSet, ts.access_expired now = false →
      accessTokenRead env now (some ts) = ⟨.ok ts.access_token, some ts, []⟩) ∧
    (∀ ts : TokenSet, ts.access_expired now = true → ts.refresh_expired now = false →
      countE .refreshCall (accessTokenRead env now (some ts)).trace = 1 ∧
      countE .loginCall (accessTokenRead env now (some ts)).trace ≤ 1 ∧
      (env.refreshPost.status = 200 →
        countE .loginCall (accessTokenRead env now (some ts)).trace = 0) ∧
      (accessTokenRead env now (some ts)).tokens =
        (refresh env now (some ts)).tokens) ∧
    (∀ ts : TokenSet, ts.access_expired now = true → ts.refresh_expired now = true →
      countE .loginCall (accessTokenRead env now (some ts)).trace = 1 ∧
      countE .refreshCall (accessTokenRead env now (some ts)).trace = 0 ∧
      (accessTokenRead env now (some ts)).tokens =
        (login env now (some ts)).tokens) ∧
    (∀ (st : Option TokenSet) (tok : String),
      (accessTokenRead env now st).result = .ok tok →
      ∃ ts2, (accessTokenRead env now st).tokens = some ts2 ∧
        tok = ts2.access_token) ∧
    (envTokensFresh env now → ∀ (st : Option TokenSet) (tok : String),
      (accessTokenRead env now st).result = .ok tok →
      ∃ ts2, (accessTokenRead env now st).tokens = some ts2 ∧
        ts2.access_expired now = false) := by
  refine ⟨fun hf => atr_unauth_counts env now hf,
    fun ts h => accessTokenRead_valid env now ts h,
    fun ts h1 h2 => ?_, fun ts h1 h2 => ?_,
    fun st tok h => atr_ok_shape env now st tok h,
    fun hf st tok h => atr_ok_fresh env now hf st tok h⟩
  · obtain ⟨htr, hto⟩ := atr_expired_shape env now ts h1
    rw [h2] at htr hto
    simp only [Bool.false_eq_true, if_false] at htr hto
    rw [htr, hto]
    exact ⟨(refresh_trace_counts env now ts).1, (refresh_trace_counts env now ts).2.1,
      fun hs => (refresh_trace_counts env now ts).2.2 hs, rfl⟩
  · obtain ⟨htr, hto⟩ := atr_expired_shape env now ts h1
    rw [h2] at htr hto
    simp only [if_true] at htr hto
    rw [htr, hto]
    exact ⟨(login_trace_counts env now (some ts)).1,
      (login_trace_counts env now (some ts)).2.2.1, rfl⟩

theorem countE_append (e : AuthEvent) :
    ∀ l1 l2, countE e (l1 ++ l2) = countE e l1 + countE e l2 := by
  intro l1
  induction l1 with
  | nil => intro l2; simp [countE]
  | cons x xs ih =>
    intro l2
    show (if x = e then 1 else 0) + countE e (xs ++ l2) =
      ((if x = e then 1 else 0) + countE e xs) + countE e l2
    rw [ih]
    omega

/-! ## Claim C4: the authenticated request retry -/

/-- C4: on a 401 the client performs exactly one full login and retries
the same request exactly once with the freshly read token; a 401 on the
retry, like any final status ≥ 400, raises an `APIError` carrying the
status code, response body and request URL; a first response that is
≥ 400 but not 401 raises at once with no login and no retry; and no
request is ever sent more than twice. -/
theorem claim_C4_request_retry (env : AuthEnv) (now : Int) (ts : TokenSet)
    (resp1 resp2 : ApiResp) (hts : ts.access_expired now = false)
    (hf : envTokensFresh env now) :
    (clientRequest env now (some ts) resp1 resp2).sentTokens.length ≤ 2 ∧
    (resp1.status = 401 →
      countE .loginCall (clientRequest env now (some ts) resp1 resp2).trace = 1) ∧
    (resp1.status = 401 → (login env now (some ts)).result = .ok () →
      ∃ ts2, (login env now (some ts)).tokens = some ts2 ∧
        (clientRequest env now (some ts) resp1 resp2).sentTokens =
          [ts.access_token, ts2.access_token] ∧
        (resp2.status ≥ 400 →
          (clientRequest env now (some ts) resp1 resp2).result =
            .error (.apiFailure ⟨resp2.status, resp2.text, resp2.url⟩)) ∧
        (resp2.status < 400 →
          (clientRequest env now (some ts) resp1 resp2).result = .ok resp2.text)) ∧
    (resp1.status ≠ 401 → resp1.status ≥ 400 →
      (clientRequest env now (some ts) resp1 resp2).result =
        .error (.apiFailure ⟨resp1.status, resp1.text, resp1.url⟩) ∧
      (clientRequest env now (some ts) resp1 resp2).sentTokens = [ts.access_token] ∧
      countE .loginCall (clientRequest env now (some ts) resp1 resp2).trace = 0) ∧
    (resp1.status ≠ 401 → resp1.status < 400 →
      (clientRequest env now (some ts) resp1 resp2).result = .ok resp1.text ∧
      (clientRequest env now (some ts) resp1 resp2).sentTokens = [ts.access_token] ∧
      countE .loginCall (clientRequest env now (some ts) resp1 resp2).trace = 0) := by
  have hv := accessTokenRead_valid env now ts hts
  by_cases h1 : resp1.status = 401
  · cases hr : (login env now (some ts)).result with
    | error e =>
      have hshape : clientRequest env now (some ts) resp1 resp2 =
          ⟨.error (.authFailure e), (login env now (some ts)).tokens,
            [] ++ (login env now (some ts)).trace, [ts.access_token]⟩ := by
        unfold clientRequest
        simp only [hv]
        rw [if_pos h1, hr]
      rw [hshape]
      refine ⟨by simp, fun _ => ?_, fun _ hok => absurd hok (by simp),
        fun hc _ => absurd h1 hc, fun hc _ => absurd h1 hc⟩
      simpa using (login_trace_counts env now (some ts)).1
    | ok u =>
      obtain ⟨ts2, ht2, hfr⟩ := login_ok_fresh env now (some ts) hf (by rw [hr])
      have hshape : clientRequest env now (some ts) resp1 resp2 =
          ⟨if resp2.status ≥ 400 then
              .error (.apiFailure ⟨resp2.status, resp2.text, resp2.url⟩)
            else .ok resp2.text,
            some ts2, [] ++ (login env now (some ts)).trace ++ [],
            [ts.access_token, ts2.access_token]⟩ := by
        unfold clientRequest
        simp only [hv]
        rw [if_pos h1, hr]
        simp only [ht2, accessTokenRead_valid env now ts2 hfr]
        by_cases h2 : resp2.status ≥ 400 <;> simp [h2]
      rw [hshape]
      refine ⟨by simp, fun _ => ?_,
        fun _ _ => ⟨ts2, ht2, rfl, fun h2 => by simp [h2], fun h2 => ?_⟩,
        fun hc _ => absurd h1 hc, fun hc _ => absurd h1 hc⟩
      · simpa [countE_append] using (login_trace_counts env now (some ts)).1
      · have h2n : ¬ resp2.status ≥ 400 := by omega
        simp [h2n]
  · have hshape : clientRequest env now (some ts) resp1 resp2 =
        ⟨if resp1.status ≥ 400 then
            .error (.apiFailure ⟨resp1.status, resp1.text, resp1.url⟩)
          else .ok resp1.text,
          some ts, [], [ts.access_token]⟩ := by
      unfold clientRequest
      simp only [hv]
      rw [if_neg h1]
      by_cases h2 : resp1.status ≥ 400 <;> simp [h2]
    rw [hshape]
    refine ⟨by simp, fun hc => absurd hc h1, fun hc _ => absurd hc h1,
      fun _ h2 => ⟨by simp [h2], rfl, rfl⟩,
      fun _ h2 => ⟨?_, rfl, rfl⟩⟩
    have h2n : ¬ resp1.status ≥ 400 := by omega
    simp [h2n]

/-- Witness for C4: a valid token, a 401 first response and a 200 retry;
the two requests go out with the old and the new bearer token. -/
theorem claim_C4_request_retry_witness :
    (clientRequest envRefreshRevoked 0
        (some (TokenSet.make 0 "T0" "R0" "" "Bearer" 300 1800 ""))
        ⟨401, "expired", "https://api/c"⟩ ⟨200, "ok-body", "https://api/c"⟩).sentTokens =
      ["T0", "A1"] := by
  obtain ⟨ts2, hts2, hsent, _, _⟩ :=
    (claim_C4_request_retry envRefreshRevoked 0
        (TokenSet.make 0 "T0" "R0" "" "Bearer" 300 1800 "")
        ⟨401, "expired", "https://api/c"⟩ ⟨200, "ok-body", "https://api/c"⟩
        (by decide) ⟨by decide, by decide, by decide⟩).2.2.1 (by decide) rfl
  have hl : (login envRefreshRevoked 0
      (some (TokenSet.make 0 "T0" "R0" "" "Bearer" 300 1800 ""))).tokens =
      some (storeTokens 0 { access_token := "A1", refresh_token := "R1" }) := rfl
  have hts2e : ts2 = storeTokens 0 { access_token := "A1", refresh_token := "R1" } :=
    Option.some.inj (hts2.symm.trans hl)
  rw [hsent, hts2e]
  rfl

/-- Witness for C1: a never-authenticated manager on a healthy
environment performs exactly one login and no refresh. -/
theorem claim_C1_access_token_state_machine_witness :
    countE .loginCall (accessTokenRead envRefreshRevoked 0 none).trace = 1 ∧
    countE .refreshCall (accessTokenRead envRefreshRevoked 0 none).trace = 0 :=
  (claim_C1_access_token_state_machine envRefreshRevoked 0).1
    ⟨by decide, by decide, by decide⟩


end Hyperoptic
